import Mathlib

/-!
Verification development for an agent-based transit simulation engine.

The engine advances a population of agents (walk / wait / ride / arrive
state machine) and a fleet of vehicles by one simulated minute per tick,
and aggregates metrics over the agent population.

Embedding conventions:
* Geographic coordinates are pairs of rationals `(lat, lng)`.
* `haversineDistance` is transcendental (sin/cos/atan2), so every engine
  function takes the distance function `d : Point → Point → ℚ` as an
  explicit parameter; theorems quantify over `d`, and concrete
  evaluations instantiate it with the computable `taxi` metric.
  None of the control-flow properties proved here depend on which
  metric is used.
* The module constants `BUS_STOPS` and `BUS_ROUTES` that the engine
  reads are passed as explicit parameters (`stops`, `busRoutes`) so
  that statements may quantify over the stop network.
* A JavaScript runtime crash (property access on `undefined`) is
  modelled by an `Option` result, `none` meaning the tick throws.
* `Math.random()` is modelled by an explicit stream `rng : ℕ → ℚ`
  together with an index that is threaded through in source order.
-/

/-- Geographic point, `(lat, lng)` in degrees as exact rationals. -/
abbrev Point := ℚ × ℚ

/-- Stream of pseudo-random draws standing for successive `Math.random()` calls. -/
abbrev Rng := ℕ → ℚ

/-- A well-formed random stream: every draw lies in `[0, 1)`. -/
def RngOk (rng : Rng) : Prop := ∀ n, 0 ≤ rng n ∧ rng n < 1

/-- JS `Math.floor` on a rational. -/
def jsFloor (q : ℚ) : Int := ⌊q⌋

/-- JS `Math.round` (half-up, ties toward positive infinity). -/
def jsRound (q : ℚ) : ℚ := (⌊q + 1/2⌋ : Int)

/-- JS array indexing `l[i]`: `undefined` (here `none`) when out of range. -/
def jsIdx (l : List α) (i : Int) : Option α :=
  if h : 0 ≤ i ∧ i.toNat < l.length then some (l.get ⟨i.toNat, h.2⟩) else none

/-- Concrete computable metric used to instantiate the distance parameter
in witnesses and counterexamples. -/
def taxi (a b : Point) : ℚ := |a.1 - b.1| + |a.2 - b.2|

/-- Agent travel state, from `types/simulation.ts` (`AgentState`). -/
inductive AgentState where
  | at_home
  | walking_to_stop
  | waiting
  | riding
  | walking_to_dest
  | at_destination
deriving DecidableEq, Repr

/-- One trip of a daily schedule (`ScheduleEntry`). -/
structure ScheduleEntry where
  departureMinute : Int
  destination : Point
  type : String
  label : String
deriving DecidableEq, Repr

/-- A synthetic traveler (`Agent`). -/
structure Agent where
  id : String
  homeLocation : Point
  currentLocation : Point
  targetLocation : Option Point
  nearestStopId : Option String
  destinationStopId : Option String
  age : Int
  ageGroup : String
  state : AgentState
  schedule : List ScheduleEntry
  currentScheduleIndex : ℕ
  carbonEmitted : ℚ
  totalTimeSpent : ℚ
  walkingTime : ℚ
  waitingTime : ℚ
  ridingTime : ℚ
  distanceTraveled : ℚ
  currentRouteId : Option String
deriving DecidableEq, Repr

/-- A bus stop (`BusStop`). -/
structure BusStop where
  id : String
  name : String
  location : Point
deriving DecidableEq, Repr

/-- A bus route (`BusRoute`). -/
structure BusRoute where
  id : String
  name : String
  stopIds : List String
  frequency : ℚ
  vehicleCapacity : ℕ
  color : String
  geometry : List Point
deriving DecidableEq, Repr

/-- A vehicle serving a route (`Vehicle`). Stop indices are kept as `Int`
because the source computes them with signed arithmetic before clamping. -/
structure Vehicle where
  id : String
  routeId : String
  currentStopIndex : Int
  nextStopIndex : Int
  passengers : List String
  capacity : ℕ
  position : Point
  progress : ℚ
  direction : Int
deriving DecidableEq, Repr

/-- A point of interest (`POI`). -/
structure POI where
  id : String
  name : String
  location : Point
  type : String
deriving DecidableEq, Repr

/-- Aggregate metrics record (`SimulationMetrics`). -/
structure SimulationMetrics where
  totalAgents : ℕ
  activeAgents : ℕ
  walkingAgents : ℕ
  waitingAgents : ℕ
  ridingAgents : ℕ
  arrivedAgents : ℕ
  averageTravelTime : ℚ
  averageWaitTime : ℚ
  totalCO2 : ℚ
  co2PerCapita : ℚ
  co2Saved : ℚ
  totalDistance : ℚ
  averageAge : ℚ
  accessibilityCoverage : ℚ
deriving DecidableEq, Repr

/-- Walking speed constant: `5 / 60` km per minute. -/
def WALKING_SPEED_KM_PER_MIN : ℚ := 5 / 60

/-- Bus speed constant: `20 / 60` km per minute. -/
def BUS_SPEED_KM_PER_MIN : ℚ := 20 / 60

/-- `CARBON_FACTORS.bus_base_per_km` from `astonData.ts`. -/
def CARBON_FACTORS_bus_base_per_km : ℚ := 820

/-- `CARBON_FACTORS.car_per_km` from `astonData.ts`. -/
def CARBON_FACTORS_car_per_km : ℚ := 171

/-- `ASTON_CENSUS.employmentRate` from `astonData.ts`. -/
def employmentRate : ℚ := 0.459

/-- Linear interpolation between two points (`lerp`). -/
def lerp (a b : Point) (t : ℚ) : Point :=
  (a.1 + (b.1 - a.1) * t, a.2 + (b.2 - a.2) * t)

/-- Result record of `moveToward`. -/
structure MoveResult where
  position : Point
  arrived : Bool
  distanceKm : ℚ
deriving DecidableEq, Repr

/-- `moveToward` from `engine.ts`: move a point toward a target at the
given per-minute speed, clamping to the target on the final step. -/
def moveToward (d : Point → Point → ℚ) (current target : Point)
    (speedKmPerMin : ℚ) : MoveResult :=
  let dist := d current target
  if dist ≤ speedKmPerMin then
    { position := target, arrived := true, distanceKm := dist }
  else
    let t := speedKmPerMin / dist
    { position := lerp current target t, arrived := false, distanceKm := speedKmPerMin }

/-- Componentwise betweenness of `p` on the segment from `a` to `b`:
`p` does not overshoot past either endpoint. -/
def betweenPt (a b p : Point) : Prop :=
  min a.1 b.1 ≤ p.1 ∧ p.1 ≤ max a.1 b.1 ∧ min a.2 b.2 ≤ p.2 ∧ p.2 ≤ max a.2 b.2

/-- The interior-interpolation bound used for the no-overshoot part of
`moveToward`: a convex combination stays between the endpoints. -/
lemma lerp_mem_segment (x y t : ℚ) (h0 : 0 ≤ t) (h1 : t ≤ 1) :
    min x y ≤ x + (y - x) * t ∧ x + (y - x) * t ≤ max x y := by
  rcases le_total x y with hxy | hxy
  · constructor
    · have : 0 ≤ (y - x) * t := mul_nonneg (by linarith) h0
      calc min x y ≤ x := min_le_left x y
      _ ≤ x + (y - x) * t := by linarith
    · have : (y - x) * t ≤ (y - x) * 1 := by
        apply mul_le_mul_of_nonneg_left h1 (by linarith)
      have hmax : y ≤ max x y := le_max_right x y
      nlinarith
  · constructor
    · have hmin : min x y ≤ y := min_le_right x y
      nlinarith [mul_nonneg (sub_nonneg.mpr hxy) (sub_nonneg.mpr h1)]
    · have : (y - x) * t ≤ 0 := mul_nonpos_of_nonpos_of_nonneg (by linarith) h0
      calc x + (y - x) * t ≤ x := by linarith
      _ ≤ max x y := le_max_left x y

/-- C2: for every current position, target and positive speed, when the
distance to the target is at most the per-tick step `moveToward` returns
exactly the target, `arrived = true`, and the moved distance equal to the
true remaining distance; otherwise it reports `arrived = false`, a moved
distance of exactly the nominal step, and a new position that never
overshoots past the target. -/
theorem moveToward_clamps_and_never_overshoots
    (d : Point → Point → ℚ) (current target : Point) (speed : ℚ)
    (hspeed : 0 < speed) :
    (d current target ≤ speed →
      moveToward d current target speed =
        { position := target, arrived := true, distanceKm := d current target }) ∧
    (speed < d current target →
      (moveToward d current target speed).arrived = false ∧
      (moveToward d current target speed).distanceKm = speed ∧
      betweenPt current target (moveToward d current target speed).position) := by
  constructor
  · intro hle
    simp only [moveToward, if_pos hle]
  · intro hlt
    have hnle : ¬ d current target ≤ speed := not_le.mpr hlt
    have hdpos : 0 < d current target := lt_trans hspeed hlt
    have ht0 : 0 ≤ speed / d current target := le_of_lt (div_pos hspeed hdpos)
    have ht1 : speed / d current target ≤ 1 :=
      le_of_lt ((div_lt_one hdpos).mpr hlt)
    refine ⟨?_, ?_, ?_⟩
    · simp only [moveToward, if_neg hnle]
    · simp only [moveToward, if_neg hnle]
    · simp only [moveToward, if_neg hnle, betweenPt, lerp]
      have h1 := lerp_mem_segment current.1 target.1 (speed / d current target) ht0 ht1
      have h2 := lerp_mem_segment current.2 target.2 (speed / d current target) ht0 ht1
      exact ⟨h1.1, h1.2, h2.1, h2.2⟩

/-- Witness for C2 at a concrete input: walking toward a target exactly
one step away arrives exactly, and a far target is approached without
overshoot. -/
theorem moveToward_clamps_witness :
    moveToward taxi (0, 0) (1, 0) 2 =
      { position := (1, 0), arrived := true, distanceKm := 1 } ∧
    (moveToward taxi (0, 0) (8, 0) 2).arrived = false ∧
    (moveToward taxi (0, 0) (8, 0) 2).distanceKm = 2 ∧
    betweenPt (0, 0) (8, 0) (moveToward taxi (0, 0) (8, 0) 2).position := by
  have h1 := (moveToward_clamps_and_never_overshoots taxi (0, 0) (1, 0) 2
    (by norm_num)).1 (by norm_num [taxi])
  have h2 := (moveToward_clamps_and_never_overshoots taxi (0, 0) (8, 0) 2
    (by norm_num)).2 (by simp [taxi]; norm_num)
  have htx : taxi (0, 0) (1, 0) = 1 := by simp [taxi]
  refine ⟨by rw [h1, htx], h2.1, h2.2.1, h2.2.2⟩

/-- Inner loop of `findNearestStop`: scan the stops keeping the best so
far (`best`) and its distance (`m`), replacing on a strictly smaller
distance. -/
def nearestLoop (d : Point → Point → ℚ) (loc : Point) :
    List BusStop → BusStop → ℚ → BusStop
  | [], best, _ => best
  | s :: rest, best, m =>
    let dd := d loc s.location
    if dd < m then nearestLoop d loc rest s dd
    else nearestLoop d loc rest best m

/-- `findNearestStop` from `astonData.ts`: nearest bus stop to a point.
The source starts from `BUS_STOPS[0]` with `minDist = Infinity`, so the
first iteration always installs the head; with rational distances this
is the loop below. An empty stop list yields `undefined` (`none`), which
crashes any caller that reads `.id`. -/
def findNearestStop (d : Point → Point → ℚ) (stops : List BusStop)
    (loc : Point) : Option BusStop :=
  match stops with
  | [] => none
  | s0 :: rest => some (nearestLoop d loc rest s0 (d loc s0.location))

/-- Inner loop of `findDestinationStop` over the stop ids of one route:
track the best (stop, distance) pair so far (`none` models the initial
`bestStop = null` / `minDist = Infinity` state). -/
def destLoopStops (d : Point → Point → ℚ) (stops : List BusStop)
    (originStopId : String) (dest : Point) :
    List String → Option (BusStop × ℚ) → Option (BusStop × ℚ)
  | [], acc => acc
  | sid :: rest, acc =>
    match stops.find? (fun s => s.id = sid) with
    | none => destLoopStops d stops originStopId dest rest acc
    | some stop =>
      if stop.id ≠ originStopId then
        let dd := d stop.location dest
        match acc with
        | none => destLoopStops d stops originStopId dest rest (some (stop, dd))
        | some (b, m) =>
          if dd < m then destLoopStops d stops originStopId dest rest (some (stop, dd))
          else destLoopStops d stops originStopId dest rest (some (b, m))
      else destLoopStops d stops originStopId dest rest acc

/-- Outer loop of `findDestinationStop` over the routes through the
origin stop. -/
def destLoopRoutes (d : Point → Point → ℚ) (stops : List BusStop)
    (originStopId : String) (dest : Point) :
    List BusRoute → Option (BusStop × ℚ) → Option (BusStop × ℚ)
  | [], acc => acc
  | r :: rest, acc =>
    destLoopRoutes d stops originStopId dest rest
      (destLoopStops d stops originStopId dest r.stopIds acc)

/-- `findDestinationStop` from `astonData.ts`: nearest stop to the
destination among the stops (other than the origin) of routes passing
through the origin stop, falling back to the globally nearest stop. -/
def findDestinationStop (d : Point → Point → ℚ) (stops : List BusStop)
    (busRoutes : List BusRoute) (originStopId : String) (dest : Point) :
    Option BusStop :=
  let availableRoutes := busRoutes.filter (fun r => r.stopIds.contains originStopId)
  if availableRoutes.isEmpty then findNearestStop d stops dest
  else
    match destLoopRoutes d stops originStopId dest availableRoutes none with
    | some (b, _) => some b
    | none => findNearestStop d stops dest

/-- Replace the first element satisfying `p` by its image under `f`
(models in-place mutation of the object returned by `Array.find`). -/
def updateFirst (p : Agent → Bool) (f : Agent → Agent) : List Agent → List Agent
  | [] => []
  | a :: rest => if p a then f a :: rest else a :: updateFirst p f rest

/-- Deboarding pass of the vehicle step (`vehicle.passengers.filter`):
passengers whose destination stop is the arrival stop leave the vehicle
and start walking to their destination; passenger ids that resolve to no
agent are dropped. Returns the updated agents and the kept passengers. -/
def deboardAll (arrivedStop : BusStop) :
    List Agent → List String → List Agent × List String
  | agents, [] => (agents, [])
  | agents, pid :: rest =>
    match agents.find? (fun a => a.id = pid) with
    | none => deboardAll arrivedStop agents rest
    | some agent =>
      if agent.destinationStopId = some arrivedStop.id then
        let agents1 := updateFirst (fun a => a.id = pid)
          (fun a => { a with state := AgentState.walking_to_dest,
                             currentLocation := arrivedStop.location,
                             currentRouteId := none }) agents
        deboardAll arrivedStop agents1 rest
      else
        let (ags, kept) := deboardAll arrivedStop agents rest
        (ags, pid :: kept)

/-- Boarding loop of the vehicle step: waiting agents (collected by the
source's filter) board in order while capacity allows and the route
serves their destination stop. The capacity check at the head of each
iteration models the source's `break`. -/
def boardAll (route : BusRoute) (vehRouteId : String) (cap : ℕ) :
    List Agent → List String → List String → List Agent × List String
  | agents, passengers, [] => (agents, passengers)
  | agents, passengers, wid :: rest =>
    if cap ≤ passengers.length then (agents, passengers)
    else
      match agents.find? (fun a => a.id = wid) with
      | none => boardAll route vehRouteId cap agents passengers rest
      | some agent =>
        match agent.destinationStopId with
        | some dsid =>
          if route.stopIds.contains dsid then
            boardAll route vehRouteId cap
              (updateFirst (fun a => a.id = wid)
                (fun a => { a with state := AgentState.riding,
                                   currentRouteId := some vehRouteId }) agents)
              (passengers ++ [wid]) rest
          else boardAll route vehRouteId cap agents passengers rest
        | none => boardAll route vehRouteId cap agents passengers rest

/-- Per-tick update of the riding passengers of a vehicle: snap position
to the vehicle, accrue riding time, distance, and the per-passenger
carbon share. -/
def ridingAll (v : Vehicle) : List Agent → List String → List Agent
  | agents, [] => agents
  | agents, pid :: rest =>
    ridingAll v
      (updateFirst (fun a => a.id = pid)
        (fun a => { a with
          currentLocation := v.position,
          ridingTime := a.ridingTime + 1,
          distanceTraveled := a.distanceTraveled + BUS_SPEED_KM_PER_MIN,
          carbonEmitted := a.carbonEmitted +
            CARBON_FACTORS_bus_base_per_km * BUS_SPEED_KM_PER_MIN /
              (max (v.passengers.length : ℚ) 1) / 1000 }) agents) rest

/-- Index bookkeeping of the vehicle step on arrival at its next stop
(`engine.ts` lines 283-296): adopt the next index as current, reset
progress, continue in the current direction, reverse at either end
(ping-pong), and clamp into bounds. -/
def advanceVehicle (route : BusRoute) (v : Vehicle) : Vehicle :=
  let v1 := { v with currentStopIndex := v.nextStopIndex, progress := (0 : ℚ) }
  let len : Int := route.stopIds.length
  let nextIdx := v1.currentStopIndex + v1.direction
  let v2 :=
    if len ≤ nextIdx ∨ nextIdx < 0 then
      { v1 with direction := -v1.direction,
                nextStopIndex := v1.currentStopIndex + -v1.direction }
    else { v1 with nextStopIndex := nextIdx }
  { v2 with nextStopIndex := max 0 (min (len - 1) v2.nextStopIndex) }

/-- Look up the stop record for the stop id at index `i` of the route
(`BUS_STOPS.find(s => s.id === route.stopIds[i])`). -/
def stopAtIdx (stops : List BusStop) (route : BusRoute) (i : Int) : Option BusStop :=
  match jsIdx route.stopIds i with
  | none => none
  | some sid => stops.find? (fun s => s.id = sid)

/-- Arrival block of the vehicle step (`engine.ts` lines 283-328):
index bookkeeping, then deboarding and boarding at the arrival stop. -/
def vehicleArrival (stops : List BusStop) (route : BusRoute)
    (agents : List Agent) (v : Vehicle) : List Agent × Vehicle :=
  let v2 := advanceVehicle route v
  match stopAtIdx stops route v2.currentStopIndex with
  | some arrivedStop =>
    let dk := deboardAll arrivedStop agents v2.passengers
    let v3 := { v2 with passengers := dk.2 }
    let waitingIds :=
      (dk.1.filter (fun a =>
        a.state = AgentState.waiting ∧
        a.nearestStopId = some arrivedStop.id ∧
        v3.passengers.length < v3.capacity)).map (fun a => a.id)
    let bb := boardAll route v3.routeId v3.capacity dk.1 v3.passengers waitingIds
    (bb.1, { v3 with passengers := bb.2 })
  | none => (agents, v2)

/-- Position interpolation of the vehicle step (`engine.ts` lines
331-336). -/
def updateVehiclePosition (stops : List BusStop) (route : BusRoute)
    (v : Vehicle) : Vehicle :=
  match stopAtIdx stops route v.currentStopIndex,
        stopAtIdx stops route v.nextStopIndex with
  | some cs, some ns =>
    { v with position := lerp cs.location ns.location (min v.progress 1) }
  | _, _ => v

/-- One vehicle's step of `stepSimulation` (`engine.ts` lines 267-351):
advance progress toward the next stop; on arrival update indices
(ping-pong), deboard and board; then interpolate the position and update
all riding passengers. -/
def stepVehicle (d : Point → Point → ℚ) (stops : List BusStop)
    (routes : List BusRoute) (agents : List Agent) (v : Vehicle) :
    List Agent × Vehicle :=
  match routes.find? (fun r => r.id = v.routeId) with
  | none => (agents, v)
  | some route =>
    match stopAtIdx stops route v.currentStopIndex,
          stopAtIdx stops route v.nextStopIndex with
    | some currentStop, some nextStop =>
      let dist := d currentStop.location nextStop.location
      let stepProgress := if 0 < dist then BUS_SPEED_KM_PER_MIN / dist else 1
      let v1 := { v with progress := v.progress + stepProgress }
      let arrivedPhase :=
        if 1 ≤ v1.progress then vehicleArrival stops route agents v1
        else (agents, v1)
      let v5 := updateVehiclePosition stops route arrivedPhase.2
      (ridingAll v5 arrivedPhase.1 v5.passengers, v5)
    | _, _ => (agents, v)

/-- Vehicle pass of `stepSimulation`: vehicles are stepped in order, each
reading and mutating the shared agent list. -/
def stepVehicles (d : Point → Point → ℚ) (stops : List BusStop)
    (routes : List BusRoute) :
    List Agent → List Vehicle → List Agent × List Vehicle
  | agents, [] => (agents, [])
  | agents, v :: vs =>
    let av := stepVehicle d stops routes agents v
    let rest := stepVehicles d stops routes av.1 vs
    (rest.1, av.2 :: rest.2)

/-- Agent branch of `stepSimulation` (the `switch` body, before the
final `totalTimeSpent` assignment). `none` models the TypeError thrown
when `findNearestStop` returns `undefined` on an empty stop set. -/
def stepAgentCore (d : Point → Point → ℚ) (stops : List BusStop)
    (busRoutes : List BusRoute) (currentMinute : Int) (a : Agent) :
    Option Agent :=
  match a.state with
  | AgentState.at_home | AgentState.at_destination =>
    if h : a.currentScheduleIndex < a.schedule.length then
      let entry := a.schedule.get ⟨a.currentScheduleIndex, h⟩
      if entry.departureMinute ≤ currentMinute then
        match findNearestStop d stops a.currentLocation with
        | none => none
        | some nearestStop =>
          let destStop := findDestinationStop d stops busRoutes nearestStop.id entry.destination
          let a1 := { a with targetLocation := some entry.destination,
                             nearestStopId := some nearestStop.id,
                             destinationStopId := destStop.map (fun (s : BusStop) => s.id) }
          let directDist := d a1.currentLocation entry.destination
          let a2 :=
            if directDist < 0.3 then { a1 with state := AgentState.walking_to_dest }
            else { a1 with state := AgentState.walking_to_stop }
          some { a2 with currentScheduleIndex := a2.currentScheduleIndex + 1 }
      else some a
    else some a
  | AgentState.walking_to_stop =>
    match a.nearestStopId with
    | none => some { a with state := AgentState.at_home }
    | some nsid =>
      match stops.find? (fun s => s.id = nsid) with
      | none => some a
      | some stop =>
        let result := moveToward d a.currentLocation stop.location WALKING_SPEED_KM_PER_MIN
        let a1 := { a with currentLocation := result.position,
                           walkingTime := a.walkingTime + 1,
                           distanceTraveled := a.distanceTraveled + result.distanceKm }
        some (if result.arrived then { a1 with state := AgentState.waiting } else a1)
  | AgentState.waiting =>
    let a1 := { a with waitingTime := a.waitingTime + 1 }
    if 15 < a1.waitingTime ∧ a1.targetLocation ≠ none then
      some { a1 with state := AgentState.walking_to_dest }
    else some a1
  | AgentState.riding => some a
  | AgentState.walking_to_dest =>
    match a.targetLocation with
    | none => some { a with state := AgentState.at_destination }
    | some target =>
      let result := moveToward d a.currentLocation target WALKING_SPEED_KM_PER_MIN
      let a1 := { a with currentLocation := result.position,
                         walkingTime := a.walkingTime + 1,
                         distanceTraveled := a.distanceTraveled + result.distanceKm }
      some (if result.arrived then
              { a1 with state := AgentState.at_destination,
                        targetLocation := none,
                        nearestStopId := none,
                        destinationStopId := none }
            else a1)

/-- One agent's full step: the state-machine branch followed by the
unconditional `totalTimeSpent = walkingTime + waitingTime + ridingTime`
assignment closing the loop body. -/
def stepAgent (d : Point → Point → ℚ) (stops : List BusStop)
    (busRoutes : List BusRoute) (currentMinute : Int) (a : Agent) :
    Option Agent :=
  (stepAgentCore d stops busRoutes currentMinute a).map
    (fun a1 => { a1 with totalTimeSpent := a1.walkingTime + a1.waitingTime + a1.ridingTime })

/-- Effectful map over a list in the `Option` monad, stopping at the
first failure (the JS loop would throw there). -/
def mapMOpt (f : α → Option β) : List α → Option (List β)
  | [] => some []
  | a :: l =>
    match f a with
    | none => none
    | some b => (mapMOpt f l).map (fun l1 => b :: l1)

/-- `stepSimulation` from `engine.ts`: one simulation tick. The module
constants `BUS_STOPS` / `BUS_ROUTES` appear as the `stops` / `busRoutes`
parameters; `routes` is the function's own route-list argument used by
the vehicle pass. `none` models a thrown TypeError. -/
def stepSimulation (d : Point → Point → ℚ) (stops : List BusStop)
    (busRoutes : List BusRoute) (agents : List Agent)
    (vehicles : List Vehicle) (currentMinute : Int)
    (routes : List BusRoute) : Option (List Agent × List Vehicle) :=
  let vp := stepVehicles d stops routes agents vehicles
  (mapMOpt (stepAgent d stops busRoutes currentMinute) vp.1).map
    (fun ags => (ags, vp.2))

/-- Concrete stop fixture used in evaluations. -/
def stopA : BusStop := { id := "A", name := "A", location := (0, 0) }

/-- Base agent fixture: freshly created shape (all counters zero,
`at_home`, empty schedule) used to build concrete scenarios. -/
def baseAgent : Agent :=
  { id := "a0", homeLocation := (0, 0), currentLocation := (0, 0),
    targetLocation := none, nearestStopId := none, destinationStopId := none,
    age := 30, ageGroup := "25-44", state := AgentState.at_home,
    schedule := [], currentScheduleIndex := 0,
    carbonEmitted := 0, totalTimeSpent := 0, walkingTime := 0,
    waitingTime := 0, ridingTime := 0, distanceTraveled := 0,
    currentRouteId := none }

/-- Agent fixture whose single trip is due at minute 0. -/
def dueAgent : Agent :=
  { baseAgent with schedule :=
      [{ departureMinute := 0, destination := (1, 1), type := "work", label := "W" }] }

/-- C1: the claim says a stop set with fewer than 2 usable stops makes
`stepSimulation` a crash-free no-op. The code has no such guard: with an
empty stop set the tick evaluates `findNearestStop(...).id` on
`undefined` and throws (modelled as `none`) as soon as an idle agent's
departure minute has been reached, and with a single stop the tick is
not a no-op (the due agent's state and schedule cursor change). -/
theorem stepSimulation_degenerate_stops_crashes :
    stepSimulation taxi [] [] [dueAgent] [] 0 [] = none ∧
    stepSimulation taxi [stopA] [] [dueAgent] [] 0 [] ≠ some ([dueAgent], []) ∧
    (stepSimulation taxi [stopA] [] [dueAgent] [] 0 []).map
        (fun r => r.1.map (fun a => (a.state, a.currentScheduleIndex))) =
      some [(AgentState.walking_to_stop, 1)] := by
  refine ⟨?_, ?_, ?_⟩ <;> with_unfolding_all decide

/-- Agent fixture for the waiting-timeout counterexample: it is one step
from entering `waiting` at its stop, but already carries 20 minutes of
cumulative waiting time from earlier trips of the day. -/
def lateWaiter : Agent :=
  { baseAgent with state := AgentState.walking_to_stop,
                   nearestStopId := some "A",
                   targetLocation := some (5, 5),
                   waitingTime := 20 }

/-- C5 counterexample: the timeout threshold is applied to the
cumulative day-long `waitingTime`, not to the time waited at the current
stop. `lateWaiter` reaches its stop and enters `waiting` on tick 0 (it
has waited 0 minutes at this stop so far); on tick 1, after a single
minute at this stop, it already abandons to `walking_to_dest` because
its cumulative counter jumps to 21 — refuting "an agent that has waited
at its current stop for 15 minutes or less remains waiting". -/
theorem waiting_timeout_counterexample :
    (stepAgent taxi [stopA] [] 0 lateWaiter).map (fun a => a.state) =
      some AgentState.waiting ∧
    ((stepAgent taxi [stopA] [] 0 lateWaiter).bind
        (stepAgent taxi [stopA] [] 1)).map (fun a => a.state) =
      some AgentState.walking_to_dest := by
  constructor <;> with_unfolding_all decide

/-- C5 amended: a `waiting` agent's counter is incremented each tick,
and it abandons to `walking_to_dest` exactly when the incremented
cumulative `waitingTime` exceeds 15 and a target location is set,
regardless of how long it has waited at the current stop; otherwise it
stays `waiting`. -/
theorem waiting_timeout_is_cumulative
    (d : Point → Point → ℚ) (stops : List BusStop) (busRoutes : List BusRoute)
    (m : Int) (a : Agent) (hw : a.state = AgentState.waiting) :
    (stepAgent d stops busRoutes m a).map (fun x => x.waitingTime) =
      some (a.waitingTime + 1) ∧
    (stepAgent d stops busRoutes m a).map (fun x => x.state) =
      some (if 15 < a.waitingTime + 1 ∧ a.targetLocation ≠ none then
              AgentState.walking_to_dest
            else AgentState.waiting) := by
  simp only [stepAgent, stepAgentCore, hw]
  by_cases hc : 15 < a.waitingTime + 1 ∧ a.targetLocation ≠ none
  · rw [if_pos hc, if_pos hc]
    exact ⟨rfl, rfl⟩
  · rw [if_neg hc, if_neg hc]
    exact ⟨rfl, rfl⟩

/-- Waiting agent fixture with 20 minutes of accumulated waiting. -/
def waiter20 : Agent :=
  { baseAgent with state := AgentState.waiting,
                   targetLocation := some (5, 5),
                   waitingTime := 20 }

/-- Waiting agent fixture with 3 minutes of accumulated waiting. -/
def waiter3 : Agent :=
  { baseAgent with state := AgentState.waiting,
                   targetLocation := some (5, 5),
                   waitingTime := 3 }

/-- Witness for the amended C5 at concrete inputs: with 20 accumulated
minutes one more tick abandons; with 3 accumulated minutes the agent
stays waiting. -/
theorem waiting_timeout_is_cumulative_witness :
    (stepAgent taxi [] [] 0 waiter20).map (fun x => x.state) =
      some AgentState.walking_to_dest ∧
    (stepAgent taxi [] [] 0 waiter3).map (fun x => x.state) =
      some AgentState.waiting := by
  constructor
  · rw [(waiting_timeout_is_cumulative taxi [] [] 0 waiter20 rfl).2]
    with_unfolding_all decide
  · rw [(waiting_timeout_is_cumulative taxi [] [] 0 waiter3 rfl).2]
    with_unfolding_all decide

/-- Agent fixture whose single trip, due at minute 0, targets a
destination 0.25 km away (below the direct-walk threshold). -/
def nearTripAgent : Agent :=
  { baseAgent with schedule :=
      [{ departureMinute := 0, destination := (0, 1/4), type := "social", label := "S" }] }

/-- Agent fixture in the middle of its final walk, one step from the
destination, with the cursor already past the trip (as the code leaves
it at departure). -/
def finalWalker : Agent :=
  { baseAgent with state := AgentState.walking_to_dest,
                   targetLocation := some (0, 1/20),
                   nearestStopId := some "A",
                   destinationStopId := some "A",
                   currentScheduleIndex := 1 }

/-- C4 counterexample: the schedule cursor advances on the departure
tick, not on the completion tick. On tick 0 `nearTripAgent` merely
starts its trip (state `walking_to_dest`) yet its cursor already
advances from 0 to 1; and when `finalWalker` completes its walk, its
state becomes `at_destination` and the transient fields are cleared,
but its cursor stays 1 instead of advancing. -/
theorem cursor_advance_counterexample :
    (stepAgent taxi [stopA] [] 0 nearTripAgent).map
        (fun a => (a.state, a.currentScheduleIndex)) =
      some (AgentState.walking_to_dest, 1) ∧
    (stepAgent taxi [stopA] [] 5 finalWalker).map
        (fun a => (a.state, a.currentScheduleIndex, a.targetLocation,
                   a.nearestStopId, a.destinationStopId)) =
      some (AgentState.at_destination, 1, none, none, none) := by
  constructor <;> with_unfolding_all rfl

/-- C4 amended: on the tick an agent completes its walk to the true
destination its state becomes `at_destination` and the transient trip
fields (`targetLocation`, `nearestStopId`, `destinationStopId`) are all
cleared to `null`, with the schedule cursor unchanged on that tick; the
cursor advances exactly once per trip, on the departure tick when an
idle agent whose departure minute has been reached starts the trip. -/
theorem arrival_clears_fields_cursor_advances_at_departure :
    (∀ (d : Point → Point → ℚ) (stops : List BusStop) (br : List BusRoute)
       (m : Int) (a : Agent) (target : Point),
      a.state = AgentState.walking_to_dest →
      a.targetLocation = some target →
      d a.currentLocation target ≤ WALKING_SPEED_KM_PER_MIN →
      (stepAgent d stops br m a).map
          (fun x => (x.state, x.currentScheduleIndex, x.targetLocation,
                     x.nearestStopId, x.destinationStopId)) =
        some (AgentState.at_destination, a.currentScheduleIndex, none, none, none)) ∧
    (∀ (d : Point → Point → ℚ) (stops : List BusStop) (br : List BusRoute)
       (m : Int) (a a' : Agent),
      stepAgent d stops br m a = some a' →
      a'.currentScheduleIndex = a.currentScheduleIndex ∨
      (a'.currentScheduleIndex = a.currentScheduleIndex + 1 ∧
       (a.state = AgentState.at_home ∨ a.state = AgentState.at_destination) ∧
       ∃ e, a.schedule.get? a.currentScheduleIndex = some e ∧
            e.departureMinute ≤ m)) := by
  constructor
  · intro d stops br m a target hst htl hle
    simp only [stepAgent, stepAgentCore, hst, htl, moveToward, if_pos hle,
      Option.map_some']
    simp
  · intro d stops br m a a' h
    rw [stepAgent, Option.map_eq_some'] at h
    obtain ⟨c, hc, rfl⟩ := h
    show c.currentScheduleIndex = _ ∨ _
    cases hst : a.state
    case at_home | at_destination =>
      simp only [stepAgentCore, hst] at hc
      split at hc
      · split at hc
        · split at hc
          · exact Option.noConfusion hc
          · cases hc
            right
            refine ⟨?_, by simp [hst], ?_⟩
            · split <;> rfl
            · exact ⟨_, List.get?_eq_get (by assumption), by assumption⟩
        · cases hc
          exact Or.inl rfl
      · cases hc
        exact Or.inl rfl
    case walking_to_stop =>
      simp only [stepAgentCore, hst] at hc
      left
      split at hc
      · cases hc; rfl
      · split at hc
        · cases hc; rfl
        · cases hc
          split <;> rfl
    case waiting =>
      simp only [stepAgentCore, hst] at hc
      split at hc
      · cases hc; exact Or.inl rfl
      · cases hc; exact Or.inl rfl
    case riding =>
      simp only [stepAgentCore, hst] at hc
      cases hc
      exact Or.inl rfl
    case walking_to_dest =>
      simp only [stepAgentCore, hst] at hc
      left
      split at hc
      · cases hc; rfl
      · cases hc
        split <;> rfl

/-- Riding agent fixture (one tick leaves it unchanged). -/
def riderAgent : Agent := { baseAgent with state := AgentState.riding }

/-- Witness for the amended C4 at concrete inputs: completing the final
walk sets `at_destination`, clears the transient fields and keeps the
cursor at 1; and a step of a riding agent leaves the cursor unchanged. -/
theorem arrival_clears_fields_witness :
    (stepAgent taxi [] [] 5 finalWalker).map
        (fun x => (x.state, x.currentScheduleIndex, x.targetLocation,
                   x.nearestStopId, x.destinationStopId)) =
      some (AgentState.at_destination, 1, none, none, none) ∧
    (riderAgent.currentScheduleIndex = riderAgent.currentScheduleIndex ∨
     (riderAgent.currentScheduleIndex = riderAgent.currentScheduleIndex + 1 ∧
      (riderAgent.state = AgentState.at_home ∨
       riderAgent.state = AgentState.at_destination) ∧
      ∃ e, riderAgent.schedule.get? riderAgent.currentScheduleIndex = some e ∧
           e.departureMinute ≤ 0)) := by
  constructor
  · have h := (arrival_clears_fields_cursor_advances_at_departure).1 taxi [] [] 5
      finalWalker (0, 1/20) (by with_unfolding_all rfl) (by with_unfolding_all rfl)
      (by with_unfolding_all decide)
    exact h
  · exact (arrival_clears_fields_cursor_advances_at_departure).2 taxi [] [] 0
      riderAgent riderAgent (by with_unfolding_all rfl)

/-- Ids of an agent list, in order. -/
def idsOf (l : List Agent) : List String := l.map (fun a => a.id)

/-- The agent stored at position `i` is in `walking_to_dest`. -/
def WTDat (i : ℕ) (l : List Agent) : Prop :=
  ∀ a, l.get? i = some a → a.state = AgentState.walking_to_dest

lemma updateFirst_ids (p : Agent → Bool) (f : Agent → Agent)
    (hf : ∀ a, (f a).id = a.id) :
    ∀ l : List Agent, idsOf (updateFirst p f l) = idsOf l := by
  intro l
  induction l with
  | nil => rfl
  | cons a rest ih =>
    by_cases hp : p a
    · simp [updateFirst, hp, idsOf, hf a]
    · simpa [updateFirst, hp, idsOf] using ih

lemma updateFirst_get? (p : Agent → Bool) (f : Agent → Agent) :
    ∀ (l : List Agent) (i : ℕ),
      (updateFirst p f l).get? i = l.get? i ∨
      ∃ a, l.get? i = some a ∧ p a = true ∧
           (updateFirst p f l).get? i = some (f a) := by
  intro l
  induction l with
  | nil => intro i; left; rfl
  | cons a rest ih =>
    intro i
    by_cases hp : p a
    · cases i with
      | zero => exact Or.inr ⟨a, rfl, hp, by simp [updateFirst, hp]⟩
      | succ n => left; simp [updateFirst, hp]
    · cases i with
      | zero => left; simp [updateFirst, hp]
      | succ n =>
        rcases ih n with h | ⟨b, hb, hpb, hub⟩
        · left; simpa [updateFirst, hp] using h
        · exact Or.inr ⟨b, by simpa using hb, hpb,
            by simpa [updateFirst, hp] using hub⟩

lemma updateFirst_WTDat (p : Agent → Bool) (f : Agent → Agent)
    (hf : ∀ a, (f a).state = a.state ∨
               (f a).state = AgentState.walking_to_dest)
    (l : List Agent) (i : ℕ) (h : WTDat i l) : WTDat i (updateFirst p f l) := by
  intro a ha
  rcases updateFirst_get? p f l i with heq | ⟨b, hb, _, hub⟩
  · exact h a (heq ▸ ha)
  · rw [hub] at ha
    cases ha
    rcases hf b with hfb | hfb
    · rw [hfb]; exact h b hb
    · exact hfb

lemma deboardAll_ids (s : BusStop) :
    ∀ (pids : List String) (agents : List Agent),
      idsOf (deboardAll s agents pids).1 = idsOf agents := by
  intro pids
  induction pids with
  | nil => intro agents; rfl
  | cons pid rest ih =>
    intro agents
    simp only [deboardAll]
    split
    · exact ih agents
    · split
      · rw [ih]
        apply updateFirst_ids
        intro a
        rfl
      · exact ih agents

lemma deboardAll_WTDat (s : BusStop) :
    ∀ (pids : List String) (agents : List Agent) (i : ℕ),
      WTDat i agents → WTDat i (deboardAll s agents pids).1 := by
  intro pids
  induction pids with
  | nil => intro agents i h; exact h
  | cons pid rest ih =>
    intro agents i h
    simp only [deboardAll]
    split
    · exact ih agents i h
    · split
      · exact ih _ i (updateFirst_WTDat _ _ (fun a => Or.inr rfl) agents i h)
      · exact ih agents i h

/-- No agent whose id occurs in `wids` is in `walking_to_dest`. -/
def NoWtdIds (wids : List String) (l : List Agent) : Prop :=
  ∀ wid ∈ wids, ∀ j b, l.get? j = some b → b.id = wid →
    b.state ≠ AgentState.walking_to_dest

lemma boardAll_WTDat (route : BusRoute) (rid : String) (cap : ℕ) :
    ∀ (wids : List String) (agents : List Agent) (ps : List String) (i : ℕ),
      WTDat i agents → NoWtdIds wids agents →
      WTDat i (boardAll route rid cap agents ps wids).1 := by
  intro wids
  induction wids with
  | nil => intro agents ps i h _; exact h
  | cons wid rest ih =>
    intro agents ps i h hinv
    have hinvrest : NoWtdIds rest agents :=
      fun w hw => hinv w (List.mem_cons_of_mem _ hw)
    simp only [boardAll]
    split
    · exact h
    · split
      · exact ih agents ps i h hinvrest
      · split
        · split
          · refine ih _ _ i ?_ ?_
            · intro a ha
              rcases updateFirst_get? (fun a => a.id = wid)
                  (fun a => { a with state := AgentState.riding,
                                     currentRouteId := some rid }) agents i with
                heq | ⟨b, hb, hpb, hub⟩
              · exact h a (heq ▸ ha)
              · exfalso
                rw [hub] at ha
                cases ha
                exact hinv wid (List.mem_cons_self _ _) i b hb
                  (by simpa using hpb) (h b hb)
            · intro w hw j b hb hid
              rcases updateFirst_get? (fun a => a.id = wid)
                  (fun a => { a with state := AgentState.riding,
                                     currentRouteId := some rid }) agents j with
                heq | ⟨c, hc, _, huc⟩
              · exact hinvrest w hw j b (heq ▸ hb) hid
              · rw [huc] at hb
                cases hb
                intro hcontra
                exact AgentState.noConfusion hcontra
          · exact ih agents ps i h hinvrest
        · exact ih agents ps i h hinvrest

lemma boardAll_ids (route : BusRoute) (rid : String) (cap : ℕ) :
    ∀ (wids : List String) (agents : List Agent) (ps : List String),
      idsOf (boardAll route rid cap agents ps wids).1 = idsOf agents := by
  intro wids
  induction wids with
  | nil => intro agents ps; rfl
  | cons wid rest ih =>
    intro agents ps
    simp only [boardAll]
    split
    · rfl
    · split
      · exact ih agents ps
      · split
        · split
          · rw [ih]
            apply updateFirst_ids
            intro a
            rfl
          · exact ih agents ps
        · exact ih agents ps

lemma ridingAll_ids (v : Vehicle) :
    ∀ (pids : List String) (agents : List Agent),
      idsOf (ridingAll v agents pids) = idsOf agents := by
  intro pids
  induction pids with
  | nil => intro agents; rfl
  | cons pid rest ih =>
    intro agents
    simp only [ridingAll]
    rw [ih]
    apply updateFirst_ids
    intro a
    rfl

lemma ridingAll_WTDat (v : Vehicle) :
    ∀ (pids : List String) (agents : List Agent) (i : ℕ),
      WTDat i agents → WTDat i (ridingAll v agents pids) := by
  intro pids
  induction pids with
  | nil => intro agents i h; exact h
  | cons pid rest ih =>
    intro agents i h
    simp only [ridingAll]
    apply ih
    apply updateFirst_WTDat
    · intro a
      exact Or.inl rfl
    · exact h

lemma waiting_filter_NoWtdIds (l : List Agent) (hnd : (idsOf l).Nodup)
    (p : Agent → Bool) (hp : ∀ a, p a = true → a.state = AgentState.waiting) :
    NoWtdIds ((l.filter p).map (fun a => a.id)) l := by
  intro wid hwid j b hb hid
  obtain ⟨w, hwmem, hwid2⟩ := List.mem_map.mp hwid
  have hwl : w ∈ l := (List.mem_filter.mp hwmem).1
  have hwp : p w = true := (List.mem_filter.mp hwmem).2
  have hbl : b ∈ l := List.get?_mem hb
  have hbw : b = w :=
    List.inj_on_of_nodup_map hnd hbl hwl (by rw [hid, hwid2])
  rw [hbw, hp w hwp]
  intro hcontra
  exact AgentState.noConfusion hcontra

lemma vehicleArrival_ids (stops : List BusStop) (route : BusRoute)
    (agents : List Agent) (v : Vehicle) :
    idsOf (vehicleArrival stops route agents v).1 = idsOf agents := by
  simp only [vehicleArrival]
  split
  · dsimp only
    rw [boardAll_ids, deboardAll_ids]
  · rfl

lemma vehicleArrival_WTDat (stops : List BusStop) (route : BusRoute)
    (agents : List Agent) (v : Vehicle)
    (hnd : (idsOf agents).Nodup) (i : ℕ) (h : WTDat i agents) :
    WTDat i (vehicleArrival stops route agents v).1 := by
  simp only [vehicleArrival]
  split
  · dsimp only
    apply boardAll_WTDat
    · exact deboardAll_WTDat _ _ agents i h
    · apply waiting_filter_NoWtdIds
      · rw [deboardAll_ids]; exact hnd
      · intro a ha
        exact (of_decide_eq_true ha).1
  · exact h

lemma stepVehicle_ids (d : Point → Point → ℚ) (stops : List BusStop)
    (routes : List BusRoute) (agents : List Agent) (v : Vehicle) :
    idsOf (stepVehicle d stops routes agents v).1 = idsOf agents := by
  simp only [stepVehicle]
  split
  · rfl
  · split
    · rw [ridingAll_ids]
      split <;> split <;> first | rw [vehicleArrival_ids] | rfl
    · rfl

lemma stepVehicle_WTDat (d : Point → Point → ℚ) (stops : List BusStop)
    (routes : List BusRoute) (agents : List Agent) (v : Vehicle)
    (hnd : (idsOf agents).Nodup) (i : ℕ) (h : WTDat i agents) :
    WTDat i (stepVehicle d stops routes agents v).1 := by
  simp only [stepVehicle]
  split
  · exact h
  · split
    · apply ridingAll_WTDat
      split <;> split <;>
        first
          | exact vehicleArrival_WTDat _ _ agents _ hnd i h
          | exact h
    · exact h

lemma stepVehicles_ids (d : Point → Point → ℚ) (stops : List BusStop)
    (routes : List BusRoute) :
    ∀ (vehicles : List Vehicle) (agents : List Agent),
      idsOf (stepVehicles d stops routes agents vehicles).1 = idsOf agents := by
  intro vehicles
  induction vehicles with
  | nil => intro agents; rfl
  | cons v vs ih =>
    intro agents
    simp only [stepVehicles]
    rw [ih, stepVehicle_ids]

lemma stepVehicles_WTDat (d : Point → Point → ℚ) (stops : List BusStop)
    (routes : List BusRoute) :
    ∀ (vehicles : List Vehicle) (agents : List Agent) (i : ℕ),
      (idsOf agents).Nodup → WTDat i agents →
      WTDat i (stepVehicles d stops routes agents vehicles).1 := by
  intro vehicles
  induction vehicles with
  | nil => intro agents i _ h; exact h
  | cons v vs ih =>
    intro agents i hnd h
    simp only [stepVehicles]
    apply ih
    · rw [stepVehicle_ids]; exact hnd
    · exact stepVehicle_WTDat d stops routes agents v hnd i h

lemma mapMOpt_get? (f : α → Option β) :
    ∀ (l : List α) (l' : List β), mapMOpt f l = some l' →
      ∀ i : ℕ, l'.get? i = (l.get? i).bind f := by
  intro l
  induction l with
  | nil =>
    intro l' h i
    cases h
    simp
  | cons a rest ih =>
    intro l' h i
    simp only [mapMOpt] at h
    cases hfa : f a with
    | none => rw [hfa] at h; exact Option.noConfusion h
    | some b =>
      rw [hfa, Option.map_eq_some'] at h
      obtain ⟨rest', hrest, rfl⟩ := h
      cases i with
      | zero => simpa using hfa.symm
      | succ n => simpa using ih rest' hrest n

/-- A walking-to-destination agent can only stay walking or arrive. -/
lemma stepAgent_wtd (d : Point → Point → ℚ) (stops : List BusStop)
    (br : List BusRoute) (m : Int) (a a' : Agent)
    (hst : a.state = AgentState.walking_to_dest)
    (h : stepAgent d stops br m a = some a') :
    a'.state = AgentState.walking_to_dest ∨
    a'.state = AgentState.at_destination := by
  rw [stepAgent, Option.map_eq_some'] at h
  obtain ⟨c, hc, rfl⟩ := h
  show c.state = _ ∨ c.state = _
  simp only [stepAgentCore, hst] at hc
  split at hc
  · cases hc; exact Or.inr rfl
  · cases hc
    split
    · exact Or.inr rfl
    · exact Or.inl rfl

/-- C3: an idle agent whose next trip's departure minute has been
reached transitions on that tick directly to `walking_to_dest` when the
distance to the trip destination is below 0.3 km, and to
`walking_to_stop` when it is 0.3 km or more; and an agent in
`walking_to_dest` never enters `walking_to_stop`, `waiting` or `riding`
on any later tick of that trip — a full simulation step can only keep it
walking or let it arrive. -/
theorem direct_walk_threshold_and_no_transit :
    (∀ (d : Point → Point → ℚ) (stops : List BusStop) (br : List BusRoute)
       (m : Int) (a : Agent), stops ≠ [] →
      (a.state = AgentState.at_home ∨ a.state = AgentState.at_destination) →
      ∀ (hidx : a.currentScheduleIndex < a.schedule.length),
      (a.schedule.get ⟨a.currentScheduleIndex, hidx⟩).departureMinute ≤ m →
      ((d a.currentLocation
          (a.schedule.get ⟨a.currentScheduleIndex, hidx⟩).destination < 0.3 →
        (stepAgent d stops br m a).map (fun x => x.state) =
          some AgentState.walking_to_dest) ∧
       (¬ d a.currentLocation
          (a.schedule.get ⟨a.currentScheduleIndex, hidx⟩).destination < 0.3 →
        (stepAgent d stops br m a).map (fun x => x.state) =
          some AgentState.walking_to_stop))) ∧
    (∀ (d : Point → Point → ℚ) (stops : List BusStop) (br : List BusRoute)
       (agents : List Agent) (vehicles : List Vehicle) (m : Int)
       (routes : List BusRoute) (ags' : List Agent) (vs' : List Vehicle)
       (i : ℕ) (a a' : Agent),
      (idsOf agents).Nodup →
      stepSimulation d stops br agents vehicles m routes = some (ags', vs') →
      agents.get? i = some a → a.state = AgentState.walking_to_dest →
      ags'.get? i = some a' →
      a'.state = AgentState.walking_to_dest ∨
      a'.state = AgentState.at_destination) := by
  constructor
  · intro d stops br m a hs hidle hidx hdep
    cases stops with
    | nil => exact absurd rfl hs
    | cons s0 rest =>
      rcases hidle with hst | hst <;>
      · constructor
        · intro hlt
          simp only [stepAgent, stepAgentCore, hst, dif_pos hidx, if_pos hdep,
            findNearestStop, Option.map_some']
          rw [if_pos hlt]
        · intro hge
          simp only [stepAgent, stepAgentCore, hst, dif_pos hidx, if_pos hdep,
            findNearestStop, Option.map_some']
          rw [if_neg hge]
  · intro d stops br agents vehicles m routes ags' vs' i a a' hnd hstep hget hst hget'
    simp only [stepSimulation, Option.map_eq_some'] at hstep
    obtain ⟨ags, hm, heq⟩ := hstep
    injection heq with h1 h2
    subst h1
    have hwtd : WTDat i (stepVehicles d stops routes agents vehicles).1 :=
      stepVehicles_WTDat d stops routes vehicles agents i hnd
        (fun x hx => by rw [hget] at hx; cases hx; exact hst)
    have hgi := mapMOpt_get? (stepAgent d stops br m)
      (stepVehicles d stops routes agents vehicles).1 ags hm i
    rw [hget'] at hgi
    cases hb : (stepVehicles d stops routes agents vehicles).1.get? i with
    | none => rw [hb] at hgi; exact Option.noConfusion hgi
    | some b =>
      rw [hb] at hgi
      exact stepAgent_wtd d stops br m b a' (hwtd b hb) hgi.symm

/-- Agent fixture for the spec's end-to-end scenario: a single trip
departing at minute 500 to a destination 0.1 km away. -/
def spec500Agent : Agent :=
  { baseAgent with schedule :=
      [{ departureMinute := 500, destination := (0, 1/10), type := "social", label := "S" }] }

/-- Walking-to-destination agent with no target (arrives immediately). -/
def wtdHome : Agent := { baseAgent with state := AgentState.walking_to_dest }

/-- The agent `wtdHome` one tick later. -/
def arrivedHome : Agent := { baseAgent with state := AgentState.at_destination }

/-- Witness for C3 at concrete inputs: the minute-500 trip 0.1 km away
starts directly in `walking_to_dest`, and a full step maps a
walking-to-destination agent only to walking or arrived. -/
theorem direct_walk_threshold_witness :
    (stepAgent taxi [stopA] [] 500 spec500Agent).map (fun x => x.state) =
      some AgentState.walking_to_dest ∧
    (arrivedHome.state = AgentState.walking_to_dest ∨
     arrivedHome.state = AgentState.at_destination) := by
  constructor
  · exact (direct_walk_threshold_and_no_transit.1 taxi [stopA] [] 500 spec500Agent
      (List.cons_ne_nil _ _) (Or.inl rfl) (by decide) (by decide)).1
      (by with_unfolding_all decide)
  · exact direct_walk_threshold_and_no_transit.2 taxi [] [] [wtdHome] [] 0 []
      [arrivedHome] [] 0 wtdHome arrivedHome (by decide)
      (by with_unfolding_all rfl) rfl rfl rfl

lemma nearestLoop_spec (d : Point → Point → ℚ) (loc : Point) :
    ∀ (l : List BusStop) (b : BusStop),
      (nearestLoop d loc l b (d loc b.location) = b ∨
       nearestLoop d loc l b (d loc b.location) ∈ l) ∧
      d loc (nearestLoop d loc l b (d loc b.location)).location ≤ d loc b.location ∧
      ∀ s ∈ l, d loc (nearestLoop d loc l b (d loc b.location)).location ≤
        d loc s.location := by
  intro l
  induction l with
  | nil =>
    intro b
    exact ⟨Or.inl rfl, le_refl _, by intro s hs; cases hs⟩
  | cons s rest ih =>
    intro b
    by_cases hlt : d loc s.location < d loc b.location
    · have hgoal : nearestLoop d loc (s :: rest) b (d loc b.location) =
          nearestLoop d loc rest s (d loc s.location) := by
        simp only [nearestLoop, if_pos hlt]
      obtain ⟨hmem, hle, hall⟩ := ih s
      rw [hgoal]
      refine ⟨?_, le_trans hle (le_of_lt hlt), ?_⟩
      · right
        rcases hmem with h | h
        · rw [h]; exact List.mem_cons_self _ _
        · exact List.mem_cons_of_mem _ h
      · intro x hx
        rcases List.mem_cons.mp hx with rfl | hx'
        · exact hle
        · exact hall x hx'
    · have hgoal : nearestLoop d loc (s :: rest) b (d loc b.location) =
          nearestLoop d loc rest b (d loc b.location) := by
        simp only [nearestLoop, if_neg hlt]
      obtain ⟨hmem, hle, hall⟩ := ih b
      rw [hgoal]
      refine ⟨?_, hle, ?_⟩
      · rcases hmem with h | h
        · exact Or.inl h
        · exact Or.inr (List.mem_cons_of_mem _ h)
      · intro x hx
        rcases List.mem_cons.mp hx with rfl | hx'
        · exact le_trans hle (not_lt.mp hlt)
        · exact hall x hx'

lemma findNearestStop_spec (d : Point → Point → ℚ) (stops : List BusStop)
    (loc : Point) (s : BusStop) (h : findNearestStop d stops loc = some s) :
    s ∈ stops ∧ ∀ t ∈ stops, d loc s.location ≤ d loc t.location := by
  cases stops with
  | nil => exact Option.noConfusion h
  | cons s0 rest =>
    simp only [findNearestStop, Option.some_inj] at h
    obtain ⟨hmem, hle, hall⟩ := nearestLoop_spec d loc rest s0
    rw [h] at hmem hle hall
    constructor
    · rcases hmem with h' | h'
      · rw [← h']; exact List.mem_cons_self _ _
      · exact List.mem_cons_of_mem _ h'
    · intro t ht
      rcases List.mem_cons.mp ht with rfl | ht'
      · exact hle
      · exact hall t ht'

/-- The stops considered by the inner loop of `findDestinationStop` for
one list of stop ids: resolvable ids other than the origin stop. -/
def candStops (stops : List BusStop) (origin : String) (sids : List String) :
    List BusStop :=
  sids.filterMap (fun sid =>
    match stops.find? (fun s => s.id = sid) with
    | some stop => if stop.id ≠ origin then some stop else none
    | none => none)

/-- All stops considered by `findDestinationStop` across the routes
through the origin stop. -/
def candOfRoutes (stops : List BusStop) (origin : String) :
    List BusRoute → List BusStop
  | [] => []
  | r :: rest => candStops stops origin r.stopIds ++ candOfRoutes stops origin rest

lemma candStops_cons_found {stops : List BusStop} {origin sid : String}
    {stop : BusStop} (rest : List String)
    (hf : stops.find? (fun s => s.id = sid) = some stop)
    (hne : stop.id ≠ origin) :
    candStops stops origin (sid :: rest) = stop :: candStops stops origin rest := by
  simp [candStops, List.filterMap_cons, hf, hne]

lemma candStops_cons_none {stops : List BusStop} {origin sid : String}
    (rest : List String)
    (hf : stops.find? (fun s => s.id = sid) = none) :
    candStops stops origin (sid :: rest) = candStops stops origin rest := by
  simp [candStops, List.filterMap_cons, hf]

lemma candStops_cons_origin {stops : List BusStop} {origin sid : String}
    {stop : BusStop} (rest : List String)
    (hf : stops.find? (fun s => s.id = sid) = some stop)
    (hne : ¬ stop.id ≠ origin) :
    candStops stops origin (sid :: rest) = candStops stops origin rest := by
  simp only [not_not] at hne
  simp [candStops, List.filterMap_cons, hf, hne]

lemma destLoopStops_some (d : Point → Point → ℚ) (stops : List BusStop)
    (origin : String) (dest : Point) :
    ∀ (sids : List String) (b0 : BusStop),
      ∃ b, destLoopStops d stops origin dest sids
              (some (b0, d b0.location dest)) =
            some (b, d b.location dest) ∧
        (b = b0 ∨ b ∈ candStops stops origin sids) ∧
        d b.location dest ≤ d b0.location dest ∧
        ∀ c ∈ candStops stops origin sids,
          d b.location dest ≤ d c.location dest := by
  intro sids
  induction sids with
  | nil =>
    intro b0
    exact ⟨b0, rfl, Or.inl rfl, le_refl _, by intro c hc; cases hc⟩
  | cons sid rest ih =>
    intro b0
    cases hf : stops.find? (fun s => s.id = sid) with
    | none =>
      obtain ⟨b, hres, hmem, hle, hall⟩ := ih b0
      rw [candStops_cons_none rest hf]
      refine ⟨b, ?_, hmem, hle, hall⟩
      simp only [destLoopStops, hf]
      exact hres
    | some stop =>
      by_cases hne : stop.id ≠ origin
      · rw [candStops_cons_found rest hf hne]
        by_cases hlt : d stop.location dest < d b0.location dest
        · obtain ⟨b, hres, hmem, hle, hall⟩ := ih stop
          refine ⟨b, ?_, ?_, le_trans hle (le_of_lt hlt), ?_⟩
          · simp only [destLoopStops, hf, if_pos hne, if_pos hlt]
            exact hres
          · right
            rcases hmem with rfl | h
            · exact List.mem_cons_self _ _
            · exact List.mem_cons_of_mem _ h
          · intro c hc
            rcases List.mem_cons.mp hc with rfl | hc'
            · exact hle
            · exact hall c hc'
        · obtain ⟨b, hres, hmem, hle, hall⟩ := ih b0
          refine ⟨b, ?_, ?_, hle, ?_⟩
          · simp only [destLoopStops, hf, if_pos hne, if_neg hlt]
            exact hres
          · rcases hmem with rfl | h
            · exact Or.inl rfl
            · exact Or.inr (List.mem_cons_of_mem _ h)
          · intro c hc
            rcases List.mem_cons.mp hc with rfl | hc'
            · exact le_trans hle (not_lt.mp hlt)
            · exact hall c hc'
      · obtain ⟨b, hres, hmem, hle, hall⟩ := ih b0
        rw [candStops_cons_origin rest hf hne]
        refine ⟨b, ?_, hmem, hle, hall⟩
        simp only [destLoopStops, hf, if_neg hne]
        exact hres

lemma destLoopStops_none (d : Point → Point → ℚ) (stops : List BusStop)
    (origin : String) (dest : Point) :
    ∀ sids : List String,
      (destLoopStops d stops origin dest sids none = none ∧
       candStops stops origin sids = []) ∨
      (∃ b, destLoopStops d stops origin dest sids none =
              some (b, d b.location dest) ∧
        b ∈ candStops stops origin sids ∧
        ∀ c ∈ candStops stops origin sids,
          d b.location dest ≤ d c.location dest) := by
  intro sids
  induction sids with
  | nil => exact Or.inl ⟨rfl, rfl⟩
  | cons sid rest ih =>
    cases hf : stops.find? (fun s => s.id = sid) with
    | none =>
      rw [candStops_cons_none rest hf]
      rcases ih with ⟨hres, hcand⟩ | ⟨b, hres, hmem, hall⟩
      · refine Or.inl ⟨?_, hcand⟩
        simp only [destLoopStops, hf]
        exact hres
      · refine Or.inr ⟨b, ?_, hmem, hall⟩
        simp only [destLoopStops, hf]
        exact hres
    | some stop =>
      by_cases hne : stop.id ≠ origin
      · rw [candStops_cons_found rest hf hne]
        obtain ⟨b, hres, hmem, hle, hall⟩ :=
          destLoopStops_some d stops origin dest rest stop
        refine Or.inr ⟨b, ?_, ?_, ?_⟩
        · simp only [destLoopStops, hf, if_pos hne]
          exact hres
        · rcases hmem with rfl | h
          · exact List.mem_cons_self _ _
          · exact List.mem_cons_of_mem _ h
        · intro c hc
          rcases List.mem_cons.mp hc with rfl | hc'
          · exact hle
          · exact hall c hc'
      · rw [candStops_cons_origin rest hf hne]
        rcases ih with ⟨hres, hcand⟩ | ⟨b, hres, hmem, hall⟩
        · refine Or.inl ⟨?_, hcand⟩
          simp only [destLoopStops, hf, if_neg hne]
          exact hres
        · refine Or.inr ⟨b, ?_, hmem, hall⟩
          simp only [destLoopStops, hf, if_neg hne]
          exact hres

lemma destLoopRoutes_some (d : Point → Point → ℚ) (stops : List BusStop)
    (origin : String) (dest : Point) :
    ∀ (routes : List BusRoute) (b0 : BusStop),
      ∃ b, destLoopRoutes d stops origin dest routes
              (some (b0, d b0.location dest)) =
            some (b, d b.location dest) ∧
        (b = b0 ∨ b ∈ candOfRoutes stops origin routes) ∧
        d b.location dest ≤ d b0.location dest ∧
        ∀ c ∈ candOfRoutes stops origin routes,
          d b.location dest ≤ d c.location dest := by
  intro routes
  induction routes with
  | nil =>
    intro b0
    exact ⟨b0, rfl, Or.inl rfl, le_refl _, by intro c hc; cases hc⟩
  | cons r rest ih =>
    intro b0
    obtain ⟨b1, hres1, hmem1, hle1, hall1⟩ :=
      destLoopStops_some d stops origin dest r.stopIds b0
    obtain ⟨b, hres, hmem, hle, hall⟩ := ih b1
    refine ⟨b, ?_, ?_, le_trans hle hle1, ?_⟩
    · simp only [destLoopRoutes, hres1]
      exact hres
    · rcases hmem with rfl | h
      · rcases hmem1 with rfl | h1
        · exact Or.inl rfl
        · exact Or.inr (List.mem_append.mpr (Or.inl h1))
      · exact Or.inr (List.mem_append.mpr (Or.inr h))
    · intro c hc
      rcases List.mem_append.mp hc with hc' | hc'
      · exact le_trans hle (hall1 c hc')
      · exact hall c hc'

lemma destLoopRoutes_none (d : Point → Point → ℚ) (stops : List BusStop)
    (origin : String) (dest : Point) :
    ∀ routes : List BusRoute,
      (destLoopRoutes d stops origin dest routes none = none ∧
       candOfRoutes stops origin routes = []) ∨
      (∃ b, destLoopRoutes d stops origin dest routes none =
              some (b, d b.location dest) ∧
        b ∈ candOfRoutes stops origin routes ∧
        ∀ c ∈ candOfRoutes stops origin routes,
          d b.location dest ≤ d c.location dest) := by
  intro routes
  induction routes with
  | nil => exact Or.inl ⟨rfl, rfl⟩
  | cons r rest ih =>
    rcases destLoopStops_none d stops origin dest r.stopIds with
      ⟨hres1, hcand1⟩ | ⟨b1, hres1, hmem1, hall1⟩
    · rcases ih with ⟨hres, hcand⟩ | ⟨b, hres, hmem, hall⟩
      · refine Or.inl ⟨?_, ?_⟩
        · simp only [destLoopRoutes, hres1]
          exact hres
        · simp [candOfRoutes, hcand1, hcand]
      · refine Or.inr ⟨b, ?_, ?_, ?_⟩
        · simp only [destLoopRoutes, hres1]
          exact hres
        · exact List.mem_append.mpr (Or.inr hmem)
        · intro c hc
          rcases List.mem_append.mp hc with hc' | hc'
          · rw [hcand1] at hc'; cases hc'
          · exact hall c hc'
    · obtain ⟨b, hres, hmem, hle, hall⟩ :=
        destLoopRoutes_some d stops origin dest rest b1
      refine Or.inr ⟨b, ?_, ?_, ?_⟩
      · simp only [destLoopRoutes, hres1]
        exact hres
      · rcases hmem with rfl | h
        · exact List.mem_append.mpr (Or.inl hmem1)
        · exact List.mem_append.mpr (Or.inr h)
      · intro c hc
        rcases List.mem_append.mp hc with hc' | hc'
        · exact le_trans hle (hall1 c hc')
        · exact hall c hc'

/-- Stop fixtures for the destination-stop counterexample. -/
def c6A : BusStop := { id := "A", name := "A", location := (0, 0) }

/-- Stop fixture far from the destination but on the agent's route. -/
def c6B : BusStop := { id := "B", name := "B", location := (10, 10) }

/-- Stop fixture at the destination but on no route through the origin. -/
def c6C : BusStop := { id := "C", name := "C", location := (2, 2) }

/-- Stop set for the destination-stop counterexample. -/
def c6stops : List BusStop := [c6A, c6B, c6C]

/-- A single route serving only stops A and B. -/
def c6routes : List BusRoute :=
  [{ id := "r1", name := "R1", stopIds := ["A", "B"], frequency := 10,
     vehicleCapacity := 50, color := "red", geometry := [] }]

/-- Agent fixture at stop A with a trip due at minute 0 toward `(2, 2)`. -/
def c6agent : Agent :=
  { baseAgent with schedule :=
      [{ departureMinute := 0, destination := (2, 2), type := "work", label := "W" }] }

/-- C6 counterexample: the engine does not assign the stop nearest to
the trip destination. With origin stop A served only by route A-B, the
destination stop assigned for a trip to `(2, 2)` is B (the best stop on
a route through A), even though stop C lies exactly at the destination
and is the globally nearest stop. -/
theorem destination_stop_counterexample :
    (stepAgent taxi c6stops c6routes 0 c6agent).map
        (fun a => a.destinationStopId) = some (some "B") ∧
    (findNearestStop taxi c6stops (2, 2)).map (fun s => s.id) = some "C" ∧
    (stepAgent taxi c6stops c6routes 0 c6agent).map
        (fun a => a.destinationStopId) ≠
      some ((findNearestStop taxi c6stops (2, 2)).map (fun s => s.id)) := by
  refine ⟨?_, ?_, ?_⟩
  · with_unfolding_all rfl
  · with_unfolding_all rfl
  · with_unfolding_all decide

/-- C6 amended: at departure the engine assigns as origin stop the
distance-minimal stop of the whole stop set relative to the agent's
location, and as destination stop the result of `findDestinationStop`,
which minimizes distance to the trip destination only among the stops
(other than the origin) on routes passing through the origin stop,
falling back to the globally nearest stop when no route serves the
origin or no such candidate exists. -/
theorem origin_and_destination_stop_selection :
    (∀ (d : Point → Point → ℚ) (stops : List BusStop) (br : List BusRoute)
       (m : Int) (a : Agent), stops ≠ [] →
      (a.state = AgentState.at_home ∨ a.state = AgentState.at_destination) →
      ∀ (hidx : a.currentScheduleIndex < a.schedule.length),
      (a.schedule.get ⟨a.currentScheduleIndex, hidx⟩).departureMinute ≤ m →
      (stepAgent d stops br m a).map
          (fun x => (x.nearestStopId, x.destinationStopId)) =
        some ((findNearestStop d stops a.currentLocation).map (fun s => s.id),
              ((findNearestStop d stops a.currentLocation).bind (fun ns =>
                findDestinationStop d stops br ns.id
                  (a.schedule.get ⟨a.currentScheduleIndex, hidx⟩).destination)).map
                (fun s => s.id))) ∧
    (∀ (d : Point → Point → ℚ) (stops : List BusStop) (loc : Point)
       (s : BusStop), findNearestStop d stops loc = some s →
      s ∈ stops ∧ ∀ t ∈ stops, d loc s.location ≤ d loc t.location) ∧
    (∀ (d : Point → Point → ℚ) (stops : List BusStop) (br : List BusRoute)
       (origin : String) (dest : Point) (s : BusStop),
      findDestinationStop d stops br origin dest = some s →
      (br.filter (fun r => r.stopIds.contains origin) = [] ∧
       findNearestStop d stops dest = some s) ∨
      (br.filter (fun r => r.stopIds.contains origin) ≠ [] ∧
       s ∈ candOfRoutes stops origin
            (br.filter (fun r => r.stopIds.contains origin)) ∧
       ∀ c ∈ candOfRoutes stops origin
            (br.filter (fun r => r.stopIds.contains origin)),
         d s.location dest ≤ d c.location dest) ∨
      (br.filter (fun r => r.stopIds.contains origin) ≠ [] ∧
       candOfRoutes stops origin
         (br.filter (fun r => r.stopIds.contains origin)) = [] ∧
       findNearestStop d stops dest = some s)) := by
  refine ⟨?_, ?_, ?_⟩
  · intro d stops br m a hs hidle hidx hdep
    cases stops with
    | nil => exact absurd rfl hs
    | cons s0 rest =>
      rcases hidle with hst | hst <;>
      · simp only [stepAgent, stepAgentCore, hst, dif_pos hidx, if_pos hdep,
          findNearestStop, Option.map_some', Option.some_bind]
        split <;> rfl
  · intro d stops loc s h
    exact findNearestStop_spec d stops loc s h
  · intro d stops br origin dest s h
    simp only [findDestinationStop] at h
    by_cases hav : (br.filter (fun r => r.stopIds.contains origin)).isEmpty
    · rw [if_pos hav] at h
      exact Or.inl ⟨List.isEmpty_iff.mp hav, h⟩
    · rw [if_neg hav] at h
      have havne : br.filter (fun r => r.stopIds.contains origin) ≠ [] :=
        fun hcontra => hav (List.isEmpty_iff.mpr hcontra)
      rcases destLoopRoutes_none d stops origin dest
          (br.filter (fun r => r.stopIds.contains origin)) with
        ⟨hres, hcand⟩ | ⟨b, hres, hmem, hall⟩
      · rw [hres] at h
        exact Or.inr (Or.inr ⟨havne, hcand, h⟩)
      · rw [hres] at h
        simp only [Option.some_inj] at h
        subst h
        exact Or.inr (Or.inl ⟨havne, hmem, hall⟩)

/-- Witness for the amended C6 at concrete inputs: the due agent at A is
assigned origin A and destination B, the nearest stop to `(2, 2)` is a
member of the stop set, and the chosen destination stop B is one of the
candidates on routes through A. -/
theorem origin_and_destination_stop_selection_witness :
    (stepAgent taxi c6stops c6routes 0 c6agent).map
        (fun x => (x.nearestStopId, x.destinationStopId)) =
      some (some "A", some "B") ∧
    c6C ∈ c6stops ∧
    c6B ∈ candOfRoutes c6stops "A"
      (c6routes.filter (fun r => r.stopIds.contains "A")) := by
  refine ⟨?_, ?_, ?_⟩
  · have h := origin_and_destination_stop_selection.1 taxi c6stops c6routes 0
      c6agent (List.cons_ne_nil _ _) (Or.inl rfl) (by decide) (by decide)
    rw [h]
    with_unfolding_all rfl
  · exact (origin_and_destination_stop_selection.2.1 taxi c6stops (2, 2) c6C
      (by with_unfolding_all rfl)).1
  · have h := origin_and_destination_stop_selection.2.2 taxi c6stops c6routes
      "A" (2, 2) c6B (by with_unfolding_all rfl)
    rcases h with ⟨hav, _⟩ | ⟨_, hmem, _⟩ | ⟨_, hcand, _⟩
    · exact absurd hav (by decide)
    · exact hmem
    · exact absurd hcand (by with_unfolding_all decide)

/-- `getAgeGroup` from `engine.ts`. -/
def getAgeGroup (age : Int) : String :=
  if age < 5 then "0-4"
  else if age < 16 then "5-15"
  else if age < 25 then "16-24"
  else if age < 45 then "25-44"
  else if age < 65 then "45-64"
  else "65+"

/-- `POIS` from `astonData.ts` (exact coordinates as rationals). -/
def POIS : List POI :=
  [{ id := "poi_01", name := "Aston University", location := (52.4871, -1.8870), type := "education" },
   { id := "poi_02", name := "Villa Park", location := (52.5093, -1.8847), type := "social" },
   { id := "poi_03", name := "Aston Hall", location := (52.5018, -1.8939), type := "social" },
   { id := "poi_04", name := "Star City", location := (52.4985, -1.8730), type := "retail" },
   { id := "poi_05", name := "Aston Manor Academy", location := (52.4970, -1.8900), type := "education" },
   { id := "poi_06", name := "Aston Medical Centre", location := (52.4940, -1.8880), type := "healthcare" },
   { id := "poi_07", name := "Newtown Shopping Centre", location := (52.4910, -1.8940), type := "retail" },
   { id := "poi_08", name := "Aston Job Centre", location := (52.4930, -1.8860), type := "employment" },
   { id := "poi_09", name := "Lozells Community Centre", location := (52.4970, -1.9015), type := "social" },
   { id := "poi_10", name := "Aston Library", location := (52.4955, -1.8905), type := "social" },
   { id := "poi_11", name := "Aston Industrial Estate", location := (52.4995, -1.8800), type := "employment" },
   { id := "poi_12", name := "HP Sauce Site (Redevelopment)", location := (52.4935, -1.8830), type := "employment" }]

/-- POIs tagged `education`. -/
def educationPois : List POI := POIS.filter (fun p => p.type = "education")

/-- POIs tagged `employment`. -/
def employmentPois : List POI := POIS.filter (fun p => p.type = "employment")

/-- POIs tagged `retail`. -/
def retailPois : List POI := POIS.filter (fun p => p.type = "retail")

/-- POIs tagged `social`. -/
def socialPois : List POI := POIS.filter (fun p => p.type = "social")

/-- POIs tagged `healthcare`. -/
def healthPois : List POI := POIS.filter (fun p => p.type = "healthcare")

/-- `randomPoi` from `generateSchedule`: `pois[floor(random()*len)]`.
Returns `none` (the JS `undefined`, crashing the caller) when the index
misses, and the advanced random index. -/
def randomPoi (rng : Rng) (k : ℕ) (pois : List POI) : Option POI × ℕ :=
  (jsIdx pois (jsFloor (rng k * pois.length)), k + 1)

/-- The final `schedule.sort((a, b) => a.departureMinute - b.departureMinute)`:
a stable ascending sort by departure minute. -/
def sortSchedule (l : List ScheduleEntry) : List ScheduleEntry :=
  List.insertionSort (fun x y => x.departureMinute ≤ y.departureMinute) l

/-- `generateSchedule` from `engine.ts`, with the `Math.random()` stream
made explicit: returns the (possibly failed) schedule and the advanced
random index. Each branch consumes draws in source order. -/
def generateSchedule (rng : Rng) (k : ℕ) (age : Int) (homeLocation : Point) :
    Option (List ScheduleEntry) × ℕ :=
  let ageGroup := getAgeGroup age
  let raw : Option (List ScheduleEntry) × ℕ :=
    if ageGroup = "5-15" then
      match randomPoi rng k educationPois with
      | (none, k1) => (none, k1)
      | (some school, k1) =>
        let e1 : ScheduleEntry :=
          { departureMinute := 450 + jsFloor (rng k1 * 30),
            destination := school.location, type := "education",
            label := school.name }
        let e2 : ScheduleEntry :=
          { departureMinute := 930 + jsFloor (rng (k1 + 1) * 30),
            destination := homeLocation, type := "home", label := "Home" }
        (some [e1, e2], k1 + 2)
    else if ageGroup = "16-24" then
      let r1 := rng k
      let k1 := k + 1
      let firstLeg : Option ScheduleEntry × ℕ :=
        if r1 < 0.6 then
          match randomPoi rng k1 educationPois with
          | (none, k2) => (none, k2)
          | (some uni, k2) =>
            (some { departureMinute := 480 + jsFloor (rng k2 * 60),
                    destination := uni.location, type := "education",
                    label := uni.name }, k2 + 1)
        else
          match randomPoi rng k1 employmentPois with
          | (none, k2) => (none, k2)
          | (some work, k2) =>
            (some { departureMinute := 420 + jsFloor (rng k2 * 60),
                    destination := work.location, type := "work",
                    label := work.name }, k2 + 1)
      match firstLeg with
      | (none, k2) => (none, k2)
      | (some e1, k2) =>
        let r2 := rng k2
        let k3 := k2 + 1
        if r2 < 0.3 then
          match randomPoi rng k3 retailPois with
          | (none, k4) => (none, k4)
          | (some shop, k4) =>
            let es : ScheduleEntry :=
              { departureMinute := 1020 + jsFloor (rng k4 * 60),
                destination := shop.location, type := "shopping",
                label := shop.name }
            let eh : ScheduleEntry :=
              { departureMinute := 1080 + jsFloor (rng (k4 + 1) * 120),
                destination := homeLocation, type := "home", label := "Home" }
            (some [e1, es, eh], k4 + 2)
        else
          let eh : ScheduleEntry :=
            { departureMinute := 1080 + jsFloor (rng k3 * 120),
              destination := homeLocation, type := "home", label := "Home" }
          (some [e1, eh], k3 + 1)
    else if ageGroup = "25-44" ∨ ageGroup = "45-64" then
      let r1 := rng k
      let k1 := k + 1
      if r1 < employmentRate then
        match randomPoi rng k1 employmentPois with
        | (none, k2) => (none, k2)
        | (some work, k2) =>
          let e1 : ScheduleEntry :=
            { departureMinute := 390 + jsFloor (rng k2 * 90),
              destination := work.location, type := "work", label := work.name }
          let k3 := k2 + 1
          let r4 := rng k3
          let k4 := k3 + 1
          if r4 < 0.25 then
            match randomPoi rng k4 retailPois with
            | (none, k5) => (none, k5)
            | (some shop, k5) =>
              let es : ScheduleEntry :=
                { departureMinute := 1020 + jsFloor (rng k5 * 30),
                  destination := shop.location, type := "shopping",
                  label := shop.name }
              let eh : ScheduleEntry :=
                { departureMinute := 1050 + jsFloor (rng (k5 + 1) * 120),
                  destination := homeLocation, type := "home", label := "Home" }
              (some [e1, es, eh], k5 + 2)
          else
            let eh : ScheduleEntry :=
              { departureMinute := 1050 + jsFloor (rng k4 * 120),
                destination := homeLocation, type := "home", label := "Home" }
            (some [e1, eh], k4 + 1)
      else
        let r2 := rng k1
        let k2 := k1 + 1
        if r2 < 0.5 then
          match randomPoi rng k2 (retailPois ++ socialPois ++ healthPois) with
          | (none, k3) => (none, k3)
          | (some dst, k3) =>
            let e1 : ScheduleEntry :=
              { departureMinute := 600 + jsFloor (rng k3 * 180),
                destination := dst.location, type := dst.type, label := dst.name }
            let eh : ScheduleEntry :=
              { departureMinute := 780 + jsFloor (rng (k3 + 1) * 180),
                destination := homeLocation, type := "home", label := "Home" }
            (some [e1, eh], k3 + 2)
        else (some [], k2)
    else if ageGroup = "65+" then
      let r1 := rng k
      let k1 := k + 1
      if r1 < 0.4 then
        match randomPoi rng k1 (healthPois ++ socialPois ++ retailPois) with
        | (none, k2) => (none, k2)
        | (some dst, k2) =>
          let e1 : ScheduleEntry :=
            { departureMinute := 600 + jsFloor (rng k2 * 120),
              destination := dst.location, type := dst.type, label := dst.name }
          let eh : ScheduleEntry :=
            { departureMinute := 780 + jsFloor (rng (k2 + 1) * 120),
              destination := homeLocation, type := "home", label := "Home" }
          (some [e1, eh], k2 + 2)
      else (some [], k1)
    else (some [], k)
  match raw with
  | (none, kf) => (none, kf)
  | (some sched, kf) => (some (sortSchedule sched), kf)

/-- `ASTON_CENSUS.ageBands` from `astonData.ts`: band label and count. -/
def ageBands : List (String × ℚ) :=
  [("0-4", 2043), ("5-9", 1875), ("10-14", 1672), ("15-19", 2797),
   ("20-24", 2489), ("25-29", 1420), ("30-34", 1844), ("35-39", 1787),
   ("40-44", 1690), ("45-49", 1629), ("50-54", 1379), ("55-59", 983),
   ("60-64", 762), ("65-69", 673), ("70-74", 468), ("75-79", 304),
   ("80+", 634)]

/-- JS `parseInt` on the strings appearing in the census bands: the
longest leading run of decimal digits, `none` when there is none (NaN). -/
def jsParseIntPrefix (s : String) : Option Int :=
  let digits := s.toList.takeWhile (fun c => c.isDigit)
  if digits.isEmpty then none
  else some (digits.foldl (fun n c => n * 10 + ((c.toNat : Int) - 48)) 0)

/-- Band-scanning loop of `generateAge`: subtract counts until the
running value drops to 0 or below, then draw an age inside the band
(`none` models NaN arithmetic if a band label failed to parse). -/
def generateAgeGo (rng : Rng) : List (String × ℚ) → ℚ → ℕ → Option Int × ℕ
  | [], _, k => (some 30, k)
  | band :: rest, r, k =>
    let r1 := r - band.2
    if r1 ≤ 0 then
      let parts := band.1.splitOn ("-")
      let minV : Int :=
        match parts.get? 0 with
        | some s => (jsParseIntPrefix s).getD 0
        | none => 0
      match parts.get? 1 with
      | some maxStr =>
        match jsParseIntPrefix maxStr with
        | some maxV =>
          (some (minV + jsFloor (rng k * ((maxV : ℚ) - (minV : ℚ) + 1))), k + 1)
        | none => (none, k + 1)
      | none =>
        let maxV : Int := if band.1.contains '+' then 95 else minV + 4
        (some (minV + jsFloor (rng k * ((maxV : ℚ) - (minV : ℚ) + 1))), k + 1)
    else generateAgeGo rng rest r1 k

/-- `generateAge` from `engine.ts`: sample an age from the census age
bands with the random stream made explicit. -/
def generateAge (rng : Rng) (k : ℕ) : Option Int × ℕ :=
  let total := ageBands.foldl (fun s b => s + b.2) 0
  generateAgeGo rng ageBands (rng k * total) (k + 1)

/-- `ASTON_BOUNDARY` from `astonData.ts`. -/
def ASTON_BOUNDARY : List Point :=
  [(52.5095, -1.8960), (52.5080, -1.8855), (52.5055, -1.8790),
   (52.5025, -1.8745), (52.4990, -1.8720), (52.4955, -1.8710),
   (52.4920, -1.8730), (52.4885, -1.8770), (52.4870, -1.8840),
   (52.4868, -1.8900), (52.4880, -1.8960), (52.4905, -1.9010),
   (52.4940, -1.9040), (52.4975, -1.9050), (52.5010, -1.9040),
   (52.5045, -1.9015), (52.5075, -1.8985), (52.5095, -1.8960)]

/-- `ASTON_CENTER` from `astonData.ts`. -/
def ASTON_CENTER : Point := (52.4975, -1.8890)

/-- `isInsideBoundary` from `astonData.ts`: ray-casting point-in-polygon
test over the ward boundary. The edge test mirrors
`((yi > lng) !== (yj > lng)) && (lat < (xj-xi)*(lng-yi)/(yj-yi)+xi)`;
the division is only reached when the first conjunct holds, so the
denominator is nonzero exactly as in the source. -/
def isInsideBoundary (lat lng : ℚ) : Bool :=
  let poly := ASTON_BOUNDARY
  let n := poly.length
  (List.range n).foldl (fun inside i =>
    let j := if i = 0 then n - 1 else i - 1
    match poly.get? i, poly.get? j with
    | some pti, some ptj =>
      let xi := pti.1
      let yi := pti.2
      let xj := ptj.1
      let yj := ptj.2
      if (decide (lng < yi) != decide (lng < yj)) &&
         decide (lat < (xj - xi) * (lng - yi) / (yj - yi) + xi) then
        !inside
      else inside
    | _, _ => inside) false

/-- Attempt loop of `randomPointInAston` (at most 100 attempts, each
consuming two draws; falls back to the ward centre). -/
def randomPointInAstonGo (rng : Rng) : ℕ → ℕ → Point × ℕ
  | 0, k => (ASTON_CENTER, k)
  | fuel + 1, k =>
    let lat := (52.4868 : ℚ) + rng k * ((52.5095 : ℚ) - 52.4868)
    let lng := (-1.9050 : ℚ) + rng (k + 1) * ((-1.8710 : ℚ) - (-1.9050))
    if isInsideBoundary lat lng then ((lat, lng), k + 2)
    else randomPointInAstonGo rng fuel (k + 2)

/-- `randomPointInAston` from `astonData.ts`. -/
def randomPointInAston (rng : Rng) (k : ℕ) : Point × ℕ :=
  randomPointInAstonGo rng 100 k

/-- Recursive body of `createAgents`: build agents `agent_i` in order,
threading the random index; any generator failure aborts (JS throw). -/
def createAgentsGo (rng : Rng) : ℕ → ℕ → ℕ → Option (List Agent)
  | 0, _, _ => some []
  | n + 1, i, k =>
    let homeK := randomPointInAston rng k
    let ageK := generateAge rng homeK.2
    match ageK.1 with
    | none => none
    | some age =>
      let schedK := generateSchedule rng ageK.2 age homeK.1
      match schedK.1 with
      | none => none
      | some sched =>
        (createAgentsGo rng n (i + 1) schedK.2).map (fun rest =>
          { id := "agent_" ++ toString i,
            homeLocation := homeK.1,
            currentLocation := homeK.1,
            targetLocation := none,
            nearestStopId := none,
            destinationStopId := none,
            age := age,
            ageGroup := getAgeGroup age,
            state := AgentState.at_home,
            schedule := sched,
            currentScheduleIndex := 0,
            carbonEmitted := 0,
            totalTimeSpent := 0,
            walkingTime := 0,
            waitingTime := 0,
            ridingTime := 0,
            distanceTraveled := 0,
            currentRouteId := none } :: rest)

/-- `createAgents` from `engine.ts` with the random stream explicit. -/
def createAgents (rng : Rng) (count : ℕ) : Option (List Agent) :=
  createAgentsGo rng count 0 0

/-- JS `Math.ceil` on a rational. -/
def jsCeil (q : ℚ) : Int := ⌈q⌉

/-- `createVehicles` from `engine.ts`: per route, `max(2, ceil(30 /
frequency))` vehicles spread along the stop sequence (modelled for
nonzero frequency; a zero frequency makes the JS loop spin forever on
`Infinity`). A vehicle is only created when its start stop resolves. -/
def mkVehicle (route : BusRoute) (vid : ℕ) (startIndex : Int)
    (stop : BusStop) : Vehicle :=
  { id := "vehicle_" ++ toString vid,
    routeId := route.id,
    currentStopIndex := startIndex,
    nextStopIndex := min (startIndex + 1) ((route.stopIds.length : Int) - 1),
    passengers := [],
    capacity := route.vehicleCapacity,
    position := stop.location,
    progress := 0,
    direction := 1 }

/-- Inner loop body of `createVehicles`: the `i`-th vehicle of a route,
created only when its start stop resolves. -/
def createVehiclesInner (stops : List BusStop) (route : BusRoute)
    (numVehicles : ℕ) (acc : List Vehicle × ℕ) (i : ℕ) : List Vehicle × ℕ :=
  let startIndex : Int :=
    jsFloor (((i : ℚ) / (numVehicles : ℚ)) * (route.stopIds.length : ℚ))
  match (jsIdx route.stopIds startIndex).bind
      (fun sid => stops.find? (fun s => s.id = sid)) with
  | some stop => (acc.1 ++ [mkVehicle route acc.2 startIndex stop], acc.2 + 1)
  | none => acc

/-- Per-route loop of `createVehicles`. -/
def createVehiclesRoute (stops : List BusStop) (acc : List Vehicle × ℕ)
    (route : BusRoute) : List Vehicle × ℕ :=
  let numVehicles : ℕ := max 2 (Int.toNat (jsCeil ((30 : ℚ) / route.frequency)))
  (List.range numVehicles).foldl (createVehiclesInner stops route numVehicles) acc

def createVehicles (stops : List BusStop) (routes : List BusRoute) : List Vehicle :=
  (routes.foldl (createVehiclesRoute stops) (([], 0) : List Vehicle × ℕ)).1

/-- Sum of a rational agent attribute, as the source's `reduce` with
initial value 0. -/
def sumQ (f : Agent → ℚ) (l : List Agent) : ℚ := l.foldl (fun s a => s + f a) 0

/-- The accessibility filter of `calculateMetrics`: count agents whose
home is within 0.4 km of their nearest stop. `none` models the crash on
an empty stop set (the source reads `.location` of `undefined`). -/
def accessibleCount (d : Point → Point → ℚ) (stops : List BusStop) :
    List Agent → Option ℕ
  | [] => some 0
  | a :: rest =>
    match findNearestStop d stops a.homeLocation with
    | none => none
    | some nearest =>
      (accessibleCount d stops rest).map (fun n =>
        if d a.homeLocation nearest.location < 0.4 then n + 1 else n)

/-- `calculateMetrics` from `engine.ts`, in explicit state-passing form:
the returned agent list is the (unmodified) population the source read
from. Divisions by a zero length yield 0 in `ℚ` where JS would produce
`NaN` (`averageAge`, `accessibilityCoverage` on an empty population);
those fields are outside every claim. -/
def calculateMetrics (d : Point → Point → ℚ) (stops : List BusStop)
    (agents : List Agent) : Option (SimulationMetrics × List Agent) :=
  match accessibleCount d stops agents with
  | none => none
  | some accessible =>
    let activeAgents := agents.filter (fun a =>
      a.state ≠ AgentState.at_home ∧ a.state ≠ AgentState.at_destination)
    let traveledAgents := agents.filter (fun a => 0 < a.totalTimeSpent)
    let totalCO2 := sumQ (fun a => a.carbonEmitted) agents
    let avgTravelTime :=
      if 0 < traveledAgents.length then
        sumQ (fun a => a.totalTimeSpent) traveledAgents / (traveledAgents.length : ℚ)
      else 0
    let avgWaitTime :=
      if 0 < traveledAgents.length then
        sumQ (fun a => a.waitingTime) traveledAgents / (traveledAgents.length : ℚ)
      else 0
    let avgAge := sumQ (fun a => (a.age : ℚ)) agents / (agents.length : ℚ)
    let totalDist := sumQ (fun a => a.distanceTraveled) agents
    let baselineCO2 := totalDist * CARBON_FACTORS_car_per_km / 1000
    let co2Saved := max 0 (baselineCO2 - totalCO2)
    some
      ({ totalAgents := agents.length,
         activeAgents := activeAgents.length,
         walkingAgents := (agents.filter (fun a =>
           a.state = AgentState.walking_to_stop ∨
           a.state = AgentState.walking_to_dest)).length,
         waitingAgents := (agents.filter (fun a =>
           a.state = AgentState.waiting)).length,
         ridingAgents := (agents.filter (fun a =>
           a.state = AgentState.riding)).length,
         arrivedAgents := (agents.filter (fun a =>
           a.state = AgentState.at_destination)).length,
         averageTravelTime := jsRound (avgTravelTime * 10) / 10,
         averageWaitTime := jsRound (avgWaitTime * 10) / 10,
         totalCO2 := jsRound (totalCO2 * 100) / 100,
         co2PerCapita :=
           if 0 < agents.length then
             jsRound (totalCO2 / (agents.length : ℚ) * 1000) / 1000
           else 0,
         co2Saved := jsRound (co2Saved * 100) / 100,
         totalDistance := jsRound (totalDist * 100) / 100,
         averageAge := jsRound (avgAge * 100) / 100,
         accessibilityCoverage :=
           jsRound ((accessible : ℚ) / (agents.length : ℚ) * 10000) / 100 },
       agents)

lemma createAgentsGo_zero_counters (rng : Rng) :
    ∀ (n i k : ℕ) (ags : List Agent), createAgentsGo rng n i k = some ags →
      ∀ a ∈ ags, a.totalTimeSpent = 0 ∧ a.walkingTime = 0 ∧
        a.waitingTime = 0 ∧ a.ridingTime = 0 := by
  intro n
  induction n with
  | zero =>
    intro i k ags h a ha
    cases h
    cases ha
  | succ n ih =>
    intro i k ags h a ha
    simp only [createAgentsGo] at h
    split at h
    · exact Option.noConfusion h
    · split at h
      · exact Option.noConfusion h
      · rw [Option.map_eq_some'] at h
        obtain ⟨rest, hrest, rfl⟩ := h
        rcases List.mem_cons.mp ha with rfl | ha'
        · exact ⟨rfl, rfl, rfl, rfl⟩
        · exact ih _ _ rest hrest a ha'

lemma mapMOpt_mem (f : α → Option β) (l : List α) (l' : List β)
    (h : mapMOpt f l = some l') (b : β) (hb : b ∈ l') :
    ∃ a, f a = some b := by
  obtain ⟨i, hi⟩ := List.mem_iff_get?.mp hb
  have := mapMOpt_get? f l l' h i
  rw [hi] at this
  cases ha : l.get? i with
  | none => rw [ha] at this; exact Option.noConfusion this
  | some a =>
    rw [ha] at this
    exact ⟨a, this.symm⟩

lemma stepAgent_total (d : Point → Point → ℚ) (stops : List BusStop)
    (br : List BusRoute) (m : Int) (a a' : Agent)
    (h : stepAgent d stops br m a = some a') :
    a'.totalTimeSpent = a'.walkingTime + a'.waitingTime + a'.ridingTime := by
  rw [stepAgent, Option.map_eq_some'] at h
  obtain ⟨c, _, rfl⟩ := h
  rfl

/-- C10: after every `stepSimulation` tick each agent's `totalTimeSpent`
equals `walkingTime + waitingTime + ridingTime` (the loop recomputes it
unconditionally at the end of each agent's branch), and freshly created
agents have all four counters equal to zero. -/
theorem totalTime_is_sum_of_counters :
    (∀ (rng : Rng) (count : ℕ) (ags : List Agent),
      createAgents rng count = some ags →
      ∀ a ∈ ags, a.totalTimeSpent = 0 ∧ a.walkingTime = 0 ∧
        a.waitingTime = 0 ∧ a.ridingTime = 0 ∧
        a.totalTimeSpent = a.walkingTime + a.waitingTime + a.ridingTime) ∧
    (∀ (d : Point → Point → ℚ) (stops : List BusStop) (br : List BusRoute)
       (agents : List Agent) (vehicles : List Vehicle) (m : Int)
       (routes : List BusRoute) (ags' : List Agent) (vs' : List Vehicle),
      stepSimulation d stops br agents vehicles m routes = some (ags', vs') →
      ∀ a ∈ ags', a.totalTimeSpent = a.walkingTime + a.waitingTime + a.ridingTime) := by
  constructor
  · intro rng count ags h a ha
    obtain ⟨h1, h2, h3, h4⟩ := createAgentsGo_zero_counters rng count 0 0 ags h a ha
    exact ⟨h1, h2, h3, h4, by rw [h1, h2, h3, h4]; norm_num⟩
  · intro d stops br agents vehicles m routes ags' vs' hstep a ha
    simp only [stepSimulation, Option.map_eq_some'] at hstep
    obtain ⟨ags, hm, heq⟩ := hstep
    injection heq with h1 h2
    subst h1
    obtain ⟨b, hb⟩ := mapMOpt_mem _ _ _ hm a ha
    exact stepAgent_total d stops br m b a hb

/-- Constant one-half random stream. -/
def rngHalf : Rng := fun _ => 1/2

/-- The agent produced by `createAgents rngHalf 1`. -/
def agentHalf : Agent :=
  { id := "agent_0",
    homeLocation := (1049963/20000, -236/125),
    currentLocation := (1049963/20000, -236/125),
    targetLocation := none, nearestStopId := none, destinationStopId := none,
    age := 27, ageGroup := "25-44", state := AgentState.at_home,
    schedule := [], currentScheduleIndex := 0,
    carbonEmitted := 0, totalTimeSpent := 0, walkingTime := 0,
    waitingTime := 0, ridingTime := 0, distanceTraveled := 0,
    currentRouteId := none }

/-- Witness for C10 at concrete inputs: the single agent created from
the constant one-half stream has zero counters, and a step of a
population containing `baseAgent` keeps the total-time identity. -/
theorem totalTime_is_sum_witness :
    createAgents rngHalf 1 = some [agentHalf] ∧
    (agentHalf.totalTimeSpent = 0 ∧ agentHalf.walkingTime = 0 ∧
     agentHalf.waitingTime = 0 ∧ agentHalf.ridingTime = 0 ∧
     agentHalf.totalTimeSpent =
       agentHalf.walkingTime + agentHalf.waitingTime + agentHalf.ridingTime) ∧
    stepSimulation taxi [stopA] [] [baseAgent] [] 0 [] = some ([baseAgent], []) ∧
    baseAgent.totalTimeSpent =
      baseAgent.walkingTime + baseAgent.waitingTime + baseAgent.ridingTime := by
  have hcreate : createAgents rngHalf 1 = some [agentHalf] := by
    with_unfolding_all rfl
  have hstep : stepSimulation taxi [stopA] [] [baseAgent] [] 0 [] =
      some ([baseAgent], []) := by
    with_unfolding_all rfl
  refine ⟨hcreate, ?_, hstep, ?_⟩
  · exact totalTime_is_sum_of_counters.1 rngHalf 1 [agentHalf] hcreate agentHalf
      (List.mem_cons_self _ _)
  · exact totalTime_is_sum_of_counters.2 taxi [stopA] [] [baseAgent] [] 0 []
      [baseAgent] [] hstep baseAgent (List.mem_cons_self _ _)

/-- Constant zero random stream. -/
def rngZero : Rng := fun _ => 0

/-- C7 counterexample: not every agent below the ≈18 child threshold
gets the education-plus-return pair. A 3-year-old (`0-4` band) receives
an empty schedule, and a 17-year-old (`16-24` band) can receive three
trips (education, shopping, home) — under the all-zero draw stream. -/
theorem child_schedule_counterexample :
    (generateSchedule rngZero 0 3 (0, 0)).1 = some [] ∧
    (generateSchedule rngZero 0 17 (0, 0)).1.map (fun l => l.length) = some 3 := by
  constructor <;> with_unfolding_all rfl

lemma jsFloor_rand (r : ℚ) (n : ℕ) (h0 : 0 ≤ r) (h1 : r < 1) (hn : 0 < n) :
    0 ≤ jsFloor (r * n) ∧ jsFloor (r * n) < (n : Int) := by
  constructor
  · exact Int.floor_nonneg.mpr (mul_nonneg h0 (by positivity))
  · apply Int.floor_lt.mpr
    have hnq : (0 : ℚ) < n := by exact_mod_cast hn
    push_cast
    nlinarith

/-- C7 amended: agents in the `5-15` census band (ages 5 to 15) get
exactly one education outbound trip departing in `[450, 480)`
(7:30-8:00) and one home return departing in `[930, 960)` (15:30-16:00),
in ascending departure order; ages 0-4 get an empty schedule and ages
16-17 follow the `16-24` pattern instead (see the counterexample). -/
theorem child_band_schedule (rng : Rng) (k : ℕ) (age : Int) (home : Point)
    (hrng : RngOk rng) (h5 : 5 ≤ age) (h16 : age < 16) :
    ∃ school ∈ educationPois,
      (generateSchedule rng k age home).1 =
        some [{ departureMinute := 450 + jsFloor (rng (k + 1) * 30),
                destination := school.location, type := "education",
                label := school.name },
              { departureMinute := 930 + jsFloor (rng (k + 2) * 30),
                destination := home, type := "home", label := "Home" }] ∧
      450 ≤ 450 + jsFloor (rng (k + 1) * 30) ∧
      450 + jsFloor (rng (k + 1) * 30) < 480 ∧
      930 ≤ 930 + jsFloor (rng (k + 2) * 30) ∧
      930 + jsFloor (rng (k + 2) * 30) < 960 := by
  have hag : getAgeGroup age = "5-15" := by
    unfold getAgeGroup
    rw [if_neg (by omega), if_pos (by omega)]
  have hlen : educationPois.length = 2 := by decide
  obtain ⟨hi0, hilt⟩ :=
    jsFloor_rand (rng k) educationPois.length (hrng k).1 (hrng k).2 (by rw [hlen]; norm_num)
  obtain ⟨hj0, hjlt⟩ := jsFloor_rand (rng (k + 1)) 30 (hrng (k + 1)).1 (hrng (k + 1)).2 (by norm_num)
  obtain ⟨hl0, hllt⟩ := jsFloor_rand (rng (k + 2)) 30 (hrng (k + 2)).1 (hrng (k + 2)).2 (by norm_num)
  push_cast at hj0 hjlt hl0 hllt
  have hids : (jsFloor (rng k * (educationPois.length : ℚ))).toNat <
      educationPois.length := by omega
  have hjsidx : jsIdx educationPois (jsFloor (rng k * (educationPois.length : ℚ))) =
      some (educationPois.get
        ⟨(jsFloor (rng k * (educationPois.length : ℚ))).toNat, hids⟩) := by
    rw [jsIdx, dif_pos ⟨hi0, hids⟩]
  refine ⟨educationPois.get
      ⟨(jsFloor (rng k * (educationPois.length : ℚ))).toNat, hids⟩,
    List.get_mem _ _ _, ?_, by omega, by omega, by omega, by omega⟩
  have hle : (450 + jsFloor (rng (k + 1) * 30) : Int) ≤
      930 + jsFloor (rng (k + 2) * 30) := by omega
  simp only [generateSchedule, hag, if_pos, randomPoi, hjsidx, sortSchedule,
    List.insertionSort, List.orderedInsert]
  rw [if_pos hle]

/-- Witness for the amended C7 at a concrete input: a 10-year-old with
the constant one-half stream. -/
theorem child_band_schedule_witness :
    ∃ school ∈ educationPois,
      (generateSchedule rngHalf 0 10 (0, 0)).1 =
        some [{ departureMinute := 450 + jsFloor (rngHalf (0 + 1) * 30),
                destination := school.location, type := "education",
                label := school.name },
              { departureMinute := 930 + jsFloor (rngHalf (0 + 2) * 30),
                destination := (0, 0), type := "home", label := "Home" }] ∧
      450 ≤ 450 + jsFloor (rngHalf (0 + 1) * 30) ∧
      450 + jsFloor (rngHalf (0 + 1) * 30) < 480 ∧
      930 ≤ 930 + jsFloor (rngHalf (0 + 2) * 30) ∧
      930 + jsFloor (rngHalf (0 + 2) * 30) < 960 :=
  child_band_schedule rngHalf 0 10 (0, 0)
    (fun _ => ⟨by norm_num [rngHalf], by norm_num [rngHalf]⟩)
    (by norm_num) (by norm_num)

/-- C9: `calculateMetrics` is a pure read-only reduction — it returns
the agent population exactly as given — and its average travel and wait
times are averaged only over the agents with nonzero total travel time,
both being 0 when no agent has traveled. -/
theorem calculateMetrics_pure_and_averages
    (d : Point → Point → ℚ) (stops : List BusStop) (agents : List Agent)
    (m : SimulationMetrics) (ags' : List Agent)
    (h : calculateMetrics d stops agents = some (m, ags')) :
    ags' = agents ∧
    (agents.filter (fun a => 0 < a.totalTimeSpent) = [] →
      m.averageTravelTime = 0 ∧ m.averageWaitTime = 0) ∧
    (agents.filter (fun a => 0 < a.totalTimeSpent) ≠ [] →
      m.averageTravelTime =
        jsRound (sumQ (fun a => a.totalTimeSpent)
            (agents.filter (fun a => 0 < a.totalTimeSpent)) /
          ((agents.filter (fun a => 0 < a.totalTimeSpent)).length : ℚ) * 10) / 10 ∧
      m.averageWaitTime =
        jsRound (sumQ (fun a => a.waitingTime)
            (agents.filter (fun a => 0 < a.totalTimeSpent)) /
          ((agents.filter (fun a => 0 < a.totalTimeSpent)).length : ℚ) * 10) / 10) := by
  simp only [calculateMetrics] at h
  split at h
  · exact Option.noConfusion h
  · simp only [Option.some_inj, Prod.mk.injEq] at h
    obtain ⟨hm, hags⟩ := h
    subst hm
    refine ⟨hags.symm, ?_, ?_⟩
    · intro hempty
      rw [hempty]
      constructor <;>
        · show jsRound ((if 0 < (List.length ([] : List Agent)) then _ else 0) * 10) / 10 = 0
          rw [if_neg (by simp)]
          norm_num [jsRound]
    · intro hne
      have hpos : 0 < (agents.filter (fun a => 0 < a.totalTimeSpent)).length :=
        List.length_pos.mpr hne
      constructor <;>
        · show jsRound ((if 0 < (agents.filter (fun a => 0 < a.totalTimeSpent)).length
              then _ else 0) * 10) / 10 = _
          rw [if_pos hpos]

/-- Metrics of a single stay-at-home agent colocated with the only stop. -/
def metricsX : SimulationMetrics :=
  { totalAgents := 1, activeAgents := 0, walkingAgents := 0,
    waitingAgents := 0, ridingAgents := 0, arrivedAgents := 0,
    averageTravelTime := 0, averageWaitTime := 0, totalCO2 := 0,
    co2PerCapita := 0, co2Saved := 0, totalDistance := 0,
    averageAge := 30, accessibilityCoverage := 100 }

/-- Witness for C9 at a concrete input: metrics of a one-agent
population leave the population unchanged and report zero averages. -/
theorem calculateMetrics_pure_witness :
    calculateMetrics taxi [stopA] [baseAgent] = some (metricsX, [baseAgent]) ∧
    metricsX.averageTravelTime = 0 ∧ metricsX.averageWaitTime = 0 := by
  have h : calculateMetrics taxi [stopA] [baseAgent] =
      some (metricsX, [baseAgent]) := by
    with_unfolding_all rfl
  exact ⟨h, (calculateMetrics_pure_and_averages taxi [stopA] [baseAgent]
    metricsX [baseAgent] h).2.1 (by with_unfolding_all rfl)⟩

/-- Both stop indices of a vehicle lie within the bounds of a route's
stop sequence. -/
def idxOk (v : Vehicle) (route : BusRoute) : Prop :=
  0 ≤ v.currentStopIndex ∧ v.currentStopIndex < (route.stopIds.length : Int) ∧
  0 ≤ v.nextStopIndex ∧ v.nextStopIndex < (route.stopIds.length : Int)

instance idxOkDec (v : Vehicle) (route : BusRoute) : Decidable (idxOk v route) := by
  unfold idxOk
  infer_instance

/-- Index bounds relative to the route the vehicle step resolves for the
vehicle (`routes.find(r => r.id === vehicle.routeId)`); vacuous when no
route matches (the step then leaves the vehicle untouched). -/
def routeIdxOk (routes : List BusRoute) (v : Vehicle) : Prop :=
  match routes.find? (fun r => r.id = v.routeId) with
  | some route => idxOk v route
  | none => True

instance routeIdxOkDec (routes : List BusRoute) (v : Vehicle) :
    Decidable (routeIdxOk routes v) :=
  match hm : routes.find? (fun r => r.id = v.routeId) with
  | some route => decidable_of_iff (idxOk v route) (by unfold routeIdxOk; rw [hm])
  | none => isTrue (by unfold routeIdxOk; rw [hm]; trivial)

/-- The vehicle invariant of the simulation: passengers within capacity,
direction flag `1` or `-1`, and stop indices within the bounds of the
vehicle's route. -/
def VehicleOk (routes : List BusRoute) (v : Vehicle) : Prop :=
  v.passengers.length ≤ v.capacity ∧
  (v.direction = 1 ∨ v.direction = -1) ∧
  routeIdxOk routes v

instance VehicleOkDec (routes : List BusRoute) (v : Vehicle) :
    Decidable (VehicleOk routes v) := by
  unfold VehicleOk
  infer_instance

lemma jsIdx_bounds {α : Type _} {l : List α} {i : Int} {x : α}
    (h : jsIdx l i = some x) : 0 ≤ i ∧ i < (l.length : Int) := by
  rw [jsIdx] at h
  split at h
  · next hc => exact ⟨hc.1, by omega⟩
  · exact Option.noConfusion h

lemma advanceVehicle_spec (route : BusRoute) (v : Vehicle)
    (hidx : idxOk v route) (hdir : v.direction = 1 ∨ v.direction = -1) :
    idxOk (advanceVehicle route v) route ∧
    ((advanceVehicle route v).direction = 1 ∨
      (advanceVehicle route v).direction = -1) ∧
    (advanceVehicle route v).passengers = v.passengers ∧
    (advanceVehicle route v).capacity = v.capacity ∧
    (advanceVehicle route v).routeId = v.routeId ∧
    ((advanceVehicle route v).direction ≠ v.direction →
      (advanceVehicle route v).currentStopIndex = 0 ∨
      (advanceVehicle route v).currentStopIndex =
        (route.stopIds.length : Int) - 1) ∧
    (advanceVehicle route v).currentStopIndex = v.nextStopIndex := by
  obtain ⟨h1, h2, h3, h4⟩ := hidx
  simp only [advanceVehicle]
  split
  · next hout =>
    dsimp only [idxOk]
    refine ⟨⟨h3, h4, by omega, by omega⟩, by omega, rfl, rfl, rfl,
      fun _ => by omega, rfl⟩
  · next hout =>
    dsimp only [idxOk]
    refine ⟨⟨h3, h4, by omega, by omega⟩, hdir, rfl, rfl, rfl,
      fun hne => absurd rfl hne, rfl⟩

lemma deboardAll_kept_le (s : BusStop) :
    ∀ (pids : List String) (agents : List Agent),
      (deboardAll s agents pids).2.length ≤ pids.length := by
  intro pids
  induction pids with
  | nil => intro agents; simp [deboardAll]
  | cons p rest ih =>
    intro agents
    simp only [deboardAll]
    split
    · exact Nat.le_succ_of_le (ih agents)
    · split
      · exact Nat.le_succ_of_le (ih _)
      · have h := ih agents
        rcases hdk : deboardAll s agents rest with ⟨ags, kept⟩
        rw [hdk] at h
        dsimp only at h
        show (p :: kept).length ≤ (p :: rest).length
        simp only [List.length_cons]
        omega

lemma boardAll_pass_le (route : BusRoute) (rid : String) (cap : ℕ) :
    ∀ (wids : List String) (agents : List Agent) (ps : List String),
      ps.length ≤ cap → (boardAll route rid cap agents ps wids).2.length ≤ cap := by
  intro wids
  induction wids with
  | nil => intro agents ps h; exact h
  | cons w rest ih =>
    intro agents ps h
    simp only [boardAll]
    split
    · exact h
    · next hlt =>
      split
      · exact ih _ _ h
      · split
        · split
          · apply ih
            simp only [List.length_append, List.length_cons, List.length_nil]
            omega
          · exact ih _ _ h
        · exact ih _ _ h

lemma updateVehiclePosition_fields (stops : List BusStop) (route : BusRoute)
    (v : Vehicle) :
    (updateVehiclePosition stops route v).currentStopIndex = v.currentStopIndex ∧
    (updateVehiclePosition stops route v).nextStopIndex = v.nextStopIndex ∧
    (updateVehiclePosition stops route v).direction = v.direction ∧
    (updateVehiclePosition stops route v).passengers = v.passengers ∧
    (updateVehiclePosition stops route v).capacity = v.capacity ∧
    (updateVehiclePosition stops route v).routeId = v.routeId := by
  simp only [updateVehiclePosition]
  split <;> exact ⟨rfl, rfl, rfl, rfl, rfl, rfl⟩

lemma vehicleArrival_vehicle (stops : List BusStop) (route : BusRoute)
    (agents : List Agent) (v : Vehicle)
    (hidx : idxOk v route) (hdir : v.direction = 1 ∨ v.direction = -1)
    (hcap : v.passengers.length ≤ v.capacity) :
    idxOk (vehicleArrival stops route agents v).2 route ∧
    ((vehicleArrival stops route agents v).2.direction = 1 ∨
      (vehicleArrival stops route agents v).2.direction = -1) ∧
    (vehicleArrival stops route agents v).2.passengers.length ≤
      (vehicleArrival stops route agents v).2.capacity ∧
    (vehicleArrival stops route agents v).2.routeId = v.routeId ∧
    (vehicleArrival stops route agents v).2.direction =
      (advanceVehicle route v).direction ∧
    (vehicleArrival stops route agents v).2.currentStopIndex =
      (advanceVehicle route v).currentStopIndex := by
  obtain ⟨ha1, ha2, ha3, ha4, ha5, ha6, ha7⟩ := advanceVehicle_spec route v hidx hdir
  simp only [vehicleArrival]
  split
  · next arrivedStop heq =>
    dsimp only
    refine ⟨ha1, ha2, ?_, ha5, rfl, rfl⟩
    have hd : (deboardAll arrivedStop agents
        (advanceVehicle route v).passengers).2.length ≤
        (advanceVehicle route v).capacity := by
      have h1 := deboardAll_kept_le arrivedStop (advanceVehicle route v).passengers agents
      calc (deboardAll arrivedStop agents (advanceVehicle route v).passengers).2.length
          ≤ (advanceVehicle route v).passengers.length := h1
        _ = v.passengers.length := by rw [ha3]
        _ ≤ v.capacity := hcap
        _ = (advanceVehicle route v).capacity := ha4.symm
    exact boardAll_pass_le route _ _ _ _ _ hd
  · exact ⟨ha1, ha2, by rw [ha3, ha4]; exact hcap, ha5, rfl, rfl⟩

/-- Workhorse for the per-vehicle invariant: after the optional arrival
block and the position update, the invariant holds and the direction can
have changed only with the new current index at an endpoint. `v1` is the
vehicle with only its progress advanced. -/
lemma stepVehiclePost_ok (stops : List BusStop) (routes : List BusRoute)
    (route : BusRoute) (agents : List Agent) (v v1 : Vehicle)
    (hfr : routes.find? (fun r => r.id = v.routeId) = some route)
    (hc : v1.currentStopIndex = v.currentStopIndex)
    (hn : v1.nextStopIndex = v.nextStopIndex)
    (hd : v1.direction = v.direction)
    (hp : v1.passengers = v.passengers)
    (hk : v1.capacity = v.capacity)
    (hr : v1.routeId = v.routeId)
    (hidx : idxOk v route) (hdir : v.direction = 1 ∨ v.direction = -1)
    (hcap : v.passengers.length ≤ v.capacity)
    (w : Vehicle)
    (hw : w = (vehicleArrival stops route agents v1).2 ∨ w = v1) :
    VehicleOk routes (updateVehiclePosition stops route w) ∧
    ((updateVehiclePosition stops route w).direction ≠ v.direction →
      ∃ r, routes.find? (fun r2 => r2.id = v.routeId) = some r ∧
        ((updateVehiclePosition stops route w).currentStopIndex = 0 ∨
         (updateVehiclePosition stops route w).currentStopIndex =
           (r.stopIds.length : Int) - 1)) := by
  have hidx1 : idxOk v1 route := by
    obtain ⟨a1, a2, a3, a4⟩ := hidx
    exact ⟨by rw [hc]; exact a1, by rw [hc]; exact a2, by rw [hn]; exact a3,
      by rw [hn]; exact a4⟩
  have hdir1 : v1.direction = 1 ∨ v1.direction = -1 := by rw [hd]; exact hdir
  have hcap1 : v1.passengers.length ≤ v1.capacity := by rw [hp, hk]; exact hcap
  obtain ⟨hu1, hu2, hu3, hu4, hu5, hu6⟩ := updateVehiclePosition_fields stops route w
  rcases hw with hw | hw
  · obtain ⟨hw1, hw2, hw3, hw4, hw5, hw6⟩ :=
      vehicleArrival_vehicle stops route agents v1 hidx1 hdir1 hcap1
    constructor
    · refine ⟨?_, ?_, ?_⟩
      · rw [hu4, hu5, hw]; exact hw3
      · rw [hu3, hw]; exact hw2
      · unfold routeIdxOk
        have hrid : (updateVehiclePosition stops route w).routeId = v.routeId := by
          rw [hu6, hw, hw4, hr]
        rw [hrid, hfr]
        show idxOk _ route
        obtain ⟨b1, b2, b3, b4⟩ := hw1
        exact ⟨by rw [hu1, hw]; exact b1, by rw [hu1, hw]; exact b2,
          by rw [hu2, hw]; exact b3, by rw [hu2, hw]; exact b4⟩
    · intro hne
      refine ⟨route, hfr, ?_⟩
      obtain ⟨_, _, _, _, _, hflip, hcur⟩ := advanceVehicle_spec route v1 hidx1 hdir1
      rw [hu1, hw, hw6]
      apply hflip
      intro hde
      apply hne
      rw [hu3, hw, hw5, hde, hd]
  · constructor
    · refine ⟨?_, ?_, ?_⟩
      · rw [hu4, hu5, hw, hp, hk]; exact hcap
      · rw [hu3, hw, hd]; exact hdir
      · unfold routeIdxOk
        have hrid : (updateVehiclePosition stops route w).routeId = v.routeId := by
          rw [hu6, hw, hr]
        rw [hrid, hfr]
        show idxOk _ route
        obtain ⟨b1, b2, b3, b4⟩ := hidx1
        exact ⟨by rw [hu1, hw]; exact b1, by rw [hu1, hw]; exact b2,
          by rw [hu2, hw]; exact b3, by rw [hu2, hw]; exact b4⟩
    · intro hne
      exact absurd (by rw [hu3, hw, hd]) hne

lemma stepVehicle_ok (d : Point → Point → ℚ) (stops : List BusStop)
    (routes : List BusRoute) (agents : List Agent) (v : Vehicle)
    (hok : VehicleOk routes v) :
    VehicleOk routes (stepVehicle d stops routes agents v).2 ∧
    ((stepVehicle d stops routes agents v).2.direction ≠ v.direction →
      ∃ route, routes.find? (fun r => r.id = v.routeId) = some route ∧
        ((stepVehicle d stops routes agents v).2.currentStopIndex = 0 ∨
         (stepVehicle d stops routes agents v).2.currentStopIndex =
           (route.stopIds.length : Int) - 1)) := by
  obtain ⟨hcap, hdir, hridx⟩ := hok
  simp only [stepVehicle]
  split
  · exact ⟨⟨hcap, hdir, hridx⟩, fun hne => absurd rfl hne⟩
  · next route hfr =>
    have hidx : idxOk v route := by
      have h := hridx
      unfold routeIdxOk at h
      rw [hfr] at h
      exact h
    split
    · next cs ns hcs hns =>
      generalize (if 0 < d cs.location ns.location
          then BUS_SPEED_KM_PER_MIN / d cs.location ns.location else (1 : ℚ)) = sp
      split
      · exact stepVehiclePost_ok stops routes route agents v
          { v with progress := v.progress + sp } hfr rfl rfl rfl rfl rfl rfl
          hidx hdir hcap _ (Or.inl rfl)
      · exact stepVehiclePost_ok stops routes route agents v
          { v with progress := v.progress + sp } hfr rfl rfl rfl rfl rfl rfl
          hidx hdir hcap _ (Or.inr rfl)
    · exact ⟨⟨hcap, hdir, hridx⟩, fun hne => absurd rfl hne⟩

lemma stepVehicles_mem (d : Point → Point → ℚ) (stops : List BusStop)
    (routes : List BusRoute) :
    ∀ (vehicles : List Vehicle) (agents : List Agent) (v' : Vehicle),
      v' ∈ (stepVehicles d stops routes agents vehicles).2 →
      ∃ A v, v ∈ vehicles ∧ v' = (stepVehicle d stops routes A v).2 := by
  intro vehicles
  induction vehicles with
  | nil => intro agents v' h; simp [stepVehicles] at h
  | cons v vs ih =>
    intro agents v' h
    simp only [stepVehicles] at h
    rcases List.mem_cons.mp h with h1 | h2
    · exact ⟨agents, v, List.mem_cons_self _ _, h1⟩
    · obtain ⟨A, u, hu, he⟩ := ih _ _ h2
      exact ⟨A, u, List.mem_cons_of_mem _ hu, he⟩

lemma stepSimulation_vehicles_ok (d : Point → Point → ℚ) (stops : List BusStop)
    (busRoutes : List BusRoute) (agents : List Agent) (vehicles : List Vehicle)
    (m : Int) (routes : List BusRoute) (ags : List Agent) (vs : List Vehicle)
    (hstep : stepSimulation d stops busRoutes agents vehicles m routes =
      some (ags, vs))
    (hok : ∀ v ∈ vehicles, VehicleOk routes v) :
    ∀ v ∈ vs, VehicleOk routes v := by
  have hvs : vs = (stepVehicles d stops routes agents vehicles).2 := by
    simp only [stepSimulation] at hstep
    rcases Option.map_eq_some'.mp hstep with ⟨l, hl, he⟩
    exact (congrArg Prod.snd he).symm
  intro v hv
  rw [hvs] at hv
  obtain ⟨A, u, hu, he2⟩ := stepVehicles_mem d stops routes vehicles agents v hv
  rw [he2]
  exact (stepVehicle_ok d stops routes A u (hok u hu)).1

/-- Shape of every vehicle `createVehicles` builds for a route. -/
def MadeFor (v : Vehicle) (route : BusRoute) : Prop :=
  v.routeId = route.id ∧ 0 ≤ v.currentStopIndex ∧
  v.currentStopIndex < (route.stopIds.length : Int) ∧
  v.nextStopIndex =
    min (v.currentStopIndex + 1) ((route.stopIds.length : Int) - 1) ∧
  v.passengers = [] ∧ v.direction = 1

lemma mkVehicle_made (route : BusRoute) (vid : ℕ) (startIndex : Int)
    (stop : BusStop) (h0 : 0 ≤ startIndex)
    (h1 : startIndex < (route.stopIds.length : Int)) :
    MadeFor (mkVehicle route vid startIndex stop) route :=
  ⟨rfl, h0, h1, rfl, rfl, rfl⟩

lemma createVehiclesInner_eq (stops : List BusStop) (route : BusRoute)
    (num : ℕ) (acc : List Vehicle × ℕ) (i : ℕ) :
    createVehiclesInner stops route num acc i =
      match (jsIdx route.stopIds
          (jsFloor (((i : ℚ) / (num : ℚ)) * (route.stopIds.length : ℚ)))).bind
          (fun sid => stops.find? (fun s => s.id = sid)) with
      | some stop => (acc.1 ++ [mkVehicle route acc.2
          (jsFloor (((i : ℚ) / (num : ℚ)) * (route.stopIds.length : ℚ))) stop],
          acc.2 + 1)
      | none => acc := rfl

lemma createVehiclesInner_mem (stops : List BusStop) (route : BusRoute)
    (num : ℕ) (v' : Vehicle) :
    ∀ (l : List ℕ) (acc : List Vehicle × ℕ),
      v' ∈ (l.foldl (createVehiclesInner stops route num) acc).1 →
      v' ∈ acc.1 ∨ MadeFor v' route := by
  intro l
  induction l with
  | nil => intro acc h; exact Or.inl h
  | cons i rest ih =>
    intro acc h
    rw [List.foldl_cons] at h
    rcases ih _ h with h1 | h1
    · rw [createVehiclesInner_eq] at h1
      rcases hm : (jsIdx route.stopIds
          (jsFloor (((i : ℚ) / (num : ℚ)) * (route.stopIds.length : ℚ)))).bind
          (fun sid => stops.find? (fun s => s.id = sid)) with _ | stop
      · rw [hm] at h1
        exact Or.inl h1
      · rw [hm] at h1
        rcases List.mem_append.mp h1 with h2 | h2
        · exact Or.inl h2
        · have hv : v' = mkVehicle route acc.2 _ stop := List.mem_singleton.mp h2
          right
          obtain ⟨sid, hsid, _⟩ := Option.bind_eq_some.mp hm
          obtain ⟨hb0, hb1⟩ := jsIdx_bounds hsid
          rw [hv]
          exact mkVehicle_made route acc.2 _ stop hb0 hb1
    · exact Or.inr h1

lemma createVehiclesRoute_mem (stops : List BusStop) (v' : Vehicle) :
    ∀ (routes : List BusRoute) (acc : List Vehicle × ℕ),
      v' ∈ (routes.foldl (createVehiclesRoute stops) acc).1 →
      v' ∈ acc.1 ∨ ∃ route ∈ routes, MadeFor v' route := by
  intro routes
  induction routes with
  | nil => intro acc h; exact Or.inl h
  | cons route rest ih =>
    intro acc h
    rw [List.foldl_cons] at h
    rcases ih _ h with h1 | h1
    · simp only [createVehiclesRoute] at h1
      rcases createVehiclesInner_mem stops route _ v' _ _ h1 with h2 | h2
      · exact Or.inl h2
      · exact Or.inr ⟨route, List.mem_cons_self _ _, h2⟩
    · obtain ⟨r, hr, hm⟩ := h1
      exact Or.inr ⟨r, List.mem_cons_of_mem _ hr, hm⟩

lemma find?_eq_of_mem_nodup :
    ∀ (routes : List BusRoute) (route : BusRoute), route ∈ routes →
      (routes.map (fun r => r.id)).Nodup →
      routes.find? (fun r => r.id = route.id) = some route := by
  intro routes
  induction routes with
  | nil => intro route h _; exact absurd h (List.not_mem_nil _)
  | cons r rest ih =>
    intro route hmem hnd
    rw [List.map_cons, List.nodup_cons] at hnd
    rcases List.mem_cons.mp hmem with h1 | h1
    · subst h1
      rw [List.find?_cons_of_pos _ (by simp)]
    · have hne : ¬ (r.id = route.id) := by
        intro he
        exact hnd.1 (he ▸ List.mem_map_of_mem (fun r2 => r2.id) h1)
      rw [List.find?_cons_of_neg _ (by simpa using hne)]
      exact ih route h1 hnd.2

lemma createVehicles_ok (stops : List BusStop) (routes : List BusRoute)
    (hnd : (routes.map (fun r => r.id)).Nodup) :
    ∀ v ∈ createVehicles stops routes, VehicleOk routes v := by
  intro v hv
  simp only [createVehicles] at hv
  rcases createVehiclesRoute_mem stops v routes _ hv with h | h
  · simp at h
  · obtain ⟨route, hmem, hrid, hb0, hb1, hnext, hpass, hdirv⟩ := h
    have hfr : routes.find? (fun r => r.id = v.routeId) = some route := by
      rw [hrid]
      exact find?_eq_of_mem_nodup routes route hmem hnd
    refine ⟨?_, Or.inl hdirv, ?_⟩
    · rw [hpass]
      exact Nat.zero_le _
    · unfold routeIdxOk
      rw [hfr]
      show idxOk v route
      exact ⟨hb0, hb1, by omega, by omega⟩

/-- C8: for every vehicle created by `createVehicles` (over routes with
distinct ids) and after every `stepSimulation` tick, the passenger list
never exceeds the capacity, both stop indices stay within the bounds of
the vehicle's route's stop sequence, and the direction flag is `1` or
`-1`; within a step the direction changes only when the vehicle's new
current stop index is an endpoint of its route (ping-pong traversal). -/
theorem vehicle_invariants :
    (∀ (stops : List BusStop) (routes : List BusRoute),
      (routes.map (fun r => r.id)).Nodup →
      ∀ v ∈ createVehicles stops routes, VehicleOk routes v) ∧
    (∀ (d : Point → Point → ℚ) (stops : List BusStop)
      (busRoutes : List BusRoute) (agents : List Agent)
      (vehicles : List Vehicle) (m : Int) (routes : List BusRoute)
      (ags : List Agent) (vs : List Vehicle),
      stepSimulation d stops busRoutes agents vehicles m routes =
        some (ags, vs) →
      (∀ v ∈ vehicles, VehicleOk routes v) →
      ∀ v ∈ vs, VehicleOk routes v) ∧
    (∀ (d : Point → Point → ℚ) (stops : List BusStop)
      (routes : List BusRoute) (agents : List Agent) (v : Vehicle),
      VehicleOk routes v →
      (stepVehicle d stops routes agents v).2.direction ≠ v.direction →
      ∃ route, routes.find? (fun r => r.id = v.routeId) = some route ∧
        ((stepVehicle d stops routes agents v).2.currentStopIndex = 0 ∨
         (stepVehicle d stops routes agents v).2.currentStopIndex =
           (route.stopIds.length : Int) - 1)) := by
  refine ⟨?_, ?_, ?_⟩
  · intro stops routes hnd v hv
    exact createVehicles_ok stops routes hnd v hv
  · intro d stops busRoutes agents vehicles m routes ags vs hstep hok v hv
    exact stepSimulation_vehicles_ok d stops busRoutes agents vehicles m routes
      ags vs hstep hok v hv
  · intro d stops routes agents v hok hne
    exact (stepVehicle_ok d stops routes agents v hok).2 hne

/-- Second stop of the two-stop witness route. -/
def stopB : BusStop := { id := "B", name := "B", location := (0, 1/3) }

def c8route : BusRoute :=
  { id := "r", name := "R", stopIds := ["A", "B"], frequency := 15,
    vehicleCapacity := 2, color := "c", geometry := [] }

/-- First vehicle `createVehicles` builds on the witness route. -/
def c8veh : Vehicle :=
  { id := "vehicle_0", routeId := "r", currentStopIndex := 0,
    nextStopIndex := 1, passengers := [], capacity := 2,
    position := (0, 0), progress := 0, direction := 1 }

/-- The witness vehicle after one tick: it reaches stop B (the taxi
distance between the stops equals one tick of bus travel), reverses at
the endpoint and heads back. -/
def c8stepped : Vehicle :=
  { id := "vehicle_0", routeId := "r", currentStopIndex := 1,
    nextStopIndex := 0, passengers := [], capacity := 2,
    position := (0, 1/3), progress := 0, direction := -1 }

/-- Witness for C8 on a concrete two-stop route: the created vehicle
satisfies the invariant; after one tick it still does; and on that tick
its direction flipped with the current index at the far endpoint. -/
theorem vehicle_invariants_witness :
    ((([c8route] : List BusRoute).map (fun r => r.id)).Nodup ∧
      c8veh ∈ createVehicles [stopA, stopB] [c8route] ∧
      VehicleOk [c8route] c8veh) ∧
    (stepSimulation taxi [stopA, stopB] [] [] [c8veh] 0 [c8route] =
        some ([], [c8stepped]) ∧
      VehicleOk [c8route] c8stepped) ∧
    (c8stepped.direction ≠ c8veh.direction ∧
      ∃ route, ([c8route] : List BusRoute).find?
          (fun r => r.id = c8veh.routeId) = some route ∧
        (c8stepped.currentStopIndex = 0 ∨
         c8stepped.currentStopIndex = (route.stopIds.length : Int) - 1)) := by
  obtain ⟨t1, t2, t3⟩ := vehicle_invariants
  have hnd : (([c8route] : List BusRoute).map (fun r => r.id)).Nodup := by
    with_unfolding_all decide
  have hmem : c8veh ∈ createVehicles [stopA, stopB] [c8route] := by
    with_unfolding_all decide
  have hvok : VehicleOk [c8route] c8veh :=
    t1 [stopA, stopB] [c8route] hnd c8veh hmem
  have hstep : stepSimulation taxi [stopA, stopB] [] [] [c8veh] 0 [c8route] =
      some ([], [c8stepped]) := by
    with_unfolding_all decide
  have hsv : (stepVehicle taxi [stopA, stopB] [c8route] [] c8veh).2 =
      c8stepped := by
    with_unfolding_all decide
  refine ⟨⟨hnd, hmem, hvok⟩, ⟨hstep, ?_⟩, ?_, ?_⟩
  · exact t2 taxi [stopA, stopB] [] [] [c8veh] 0 [c8route] [] [c8stepped] hstep
      (by intro v hv
          rw [List.mem_singleton] at hv
          rw [hv]
          exact hvok)
      c8stepped (List.mem_singleton.mpr rfl)
  · with_unfolding_all decide
  · have hne : (stepVehicle taxi [stopA, stopB] [c8route] [] c8veh).2.direction ≠
        c8veh.direction := by
      rw [hsv]
      with_unfolding_all decide
    have h3 := t3 taxi [stopA, stopB] [c8route] [] c8veh hvok hne
    rw [hsv] at h3
    exact h3
